import Mathlib

/-!
Verification of the document/session/upload lifecycle of the AIpdfTeacher
application (source: `Gemini_konenako_uusikurssi.py`).

The Python program is a Qt desktop front-end; the lifecycle logic lives in
the `SimpleTutorApp` controller class and two worker classes
(`PDFUploadWorker`, `AIChatWorker`).  This file gives a shallow embedding of
that logic:

* Python `dict`s (insertion ordered) are modelled as association lists with
  `insertA` (update in place or append) and `eraseA` (delete the entry).
* The controller state (`SimpleTutorApp.__init__`'s fields) is the structure
  `AppState`; every controller method is a pure function
  `AppState → AppState × List CEvent`, where `CEvent` records the externally
  visible actions in program order (status updates, warning dialogs, config
  saves, `genai.delete_file` calls, session invalidation, worker starts).
* External collaborators (filesystem existence checks, config-file write
  success, `genai` configuration success, remote deletions) are an `Env` of
  oracles, so that theorems can quantify over their outcomes.
* The worker `run` methods are pure functions over oracles describing the
  remote store (per-file poll scripts) and over the sequence of values the
  cooperative `_is_running` flag has at each of `run`'s check sites
  (`reads : Nat → Bool`, consumed left to right).  Elapsed time in the
  upload poll loop is tracked in eighths of a second so that the backoff
  schedule 5 s, ×1.5, ceiling 15 s, budget 120 s stays in `Nat`
  (40, ×3/2 capped at 120, budget 960).
* The INI/JSON persistence layer (`load_config`/`save_config`) is modelled
  at the record level: an `IniFile` stores each option as `Option` (absent
  options are `none`; `config.get`'s `fallback=` fires exactly on `none`).
  The exactness of Python's `str`/`float` and `json` round-trips for the
  stored values is absorbed into this typed representation.
-/

namespace AIpdfTeacher

/-! ## Association-list model of Python dicts -/

/-- Keys of an association list, in insertion order (`dict.keys()`). -/
def keysA {α : Type} (l : List (String × α)) : List String :=
  l.map Prod.fst

/-- Lookup (`d[k]` / `d.get(k)`). -/
def lookupA {α : Type} : List (String × α) → String → Option α
  | [], _ => none
  | (a, b) :: t, k => if a = k then some b else lookupA t k

/-- Assignment `d[k] = v`: replaces the value in place if the key is
present (Python dicts keep the original position), appends otherwise. -/
def insertA {α : Type} : List (String × α) → String → α → List (String × α)
  | [], k, v => [(k, v)]
  | (a, b) :: t, k, v => if a = k then (k, v) :: t else (a, b) :: insertA t k v

/-- Deletion `del d[k]` (removes the first entry with the key; dicts have
at most one). -/
def eraseA {α : Type} : List (String × α) → String → List (String × α)
  | [], _ => []
  | (a, b) :: t, k => if a = k then t else (a, b) :: eraseA t k

/-! ## Constants (`--- Constants ---` block of the source) -/

def DEFAULT_MODEL : String := "gemini-1.5-flash-latest"

def DEFAULT_LANGUAGE : String := "Finnish"

/-- `DEFAULT_TEMPERATURE = 0.6`, written as the reduced fraction `3/5` so
that it is a `Rat` literal the kernel can evaluate. -/
def DEFAULT_TEMPERATURE : ℚ := ⟨3, 5, by norm_num, by norm_num⟩

def ROLE_AI : String := "model"

def ROLE_USER : String := "user"

def ROLE_SYSTEM : String := "system"

/-! ## Config persistence (`load_config` / `save_config`) -/

/-- The durable settings record: the fields `load_config` reads and
`save_config` writes (`api_key`, `model`, `language`, `temperature` and
the `{basename: path}` registry stored as JSON under `Files/LocalPaths`). -/
structure ConfigRecord where
  api_key : String
  model : String
  language : String
  temperature : ℚ
  files : List (String × String)
deriving DecidableEq, Repr

/-- The on-disk INI file, at the record level.  `present = false` models a
missing `konenako_simple_config.ini`; a `none` field models an option that
is absent from the file, which is exactly when `configparser`'s
`fallback=` argument is used by `load_config`. -/
structure IniFile where
  present : Bool
  apiKey : Option String
  model : Option String
  language : Option String
  temperature : Option ℚ
  localPaths : Option (List (String × String))
deriving DecidableEq, Repr

/-- `SimpleTutorApp.save_config`: writes every option of the `Settings`
section and the JSON-encoded file registry; no option is ever omitted. -/
def save_config_file (r : ConfigRecord) : IniFile :=
  { present := true
    apiKey := some r.api_key
    model := some r.model
    language := some r.language
    temperature := some r.temperature
    localPaths := some r.files }

/-- The defaults dict of `load_config`. -/
def defaultConfigRecord : ConfigRecord :=
  { api_key := ""
    model := DEFAULT_MODEL
    language := DEFAULT_LANGUAGE
    temperature := DEFAULT_TEMPERATURE
    files := [] }

/-- `SimpleTutorApp.load_config`: if the file is missing every field takes
its default; otherwise each `config.get(..., fallback=...)` substitutes the
default only for an absent option.  (The corrupt-file branch, which also
falls back to the defaults wholesale, is not needed by the claims.) -/
def load_config_file (f : IniFile) : ConfigRecord :=
  if f.present then
    { api_key := f.apiKey.getD ""
      model := f.model.getD DEFAULT_MODEL
      language := f.language.getD DEFAULT_LANGUAGE
      temperature := f.temperature.getD DEFAULT_TEMPERATURE
      files := f.localPaths.getD [] }
  else defaultConfigRecord

/-- The round-trip behaviour claimed by the specification (used only to
state claim C9 against the code): an empty or omitted field comes back as
the documented default.  After a save no field is omitted, so on a
round trip the clause bites exactly on empty fields. -/
def specRoundTrip (r : ConfigRecord) : ConfigRecord :=
  { api_key := r.api_key
    model := if r.model = "" then DEFAULT_MODEL else r.model
    language := if r.language = "" then DEFAULT_LANGUAGE else r.language
    temperature := r.temperature
    files := r.files }

/-! ## Controller data model (`SimpleTutorApp.__init__` state fields) -/

/-- A Gemini File API object, reduced to the fields the controller reads:
`name` (the opaque backend id, used by `genai.delete_file`) and
`display_name` (the basename passed at upload, used by
`_handle_upload_finished` to match results to requests). -/
structure FileObj where
  name : String
  displayName : Option String
deriving DecidableEq, Repr

/-- One entry of `current_chat_history` (`ContentDict`:
`{'role': ..., 'parts': [...]}`). -/
structure ChatMsg where
  role : String
  parts : List String
deriving DecidableEq, Repr

/-- Oracles for the external collaborators of the controller:
filesystem existence, config-file write success, `genai.configure` +
`GenerativeModel` success, `model.start_chat` success, and per-name
`genai.delete_file` success. -/
structure Env where
  fsExists : String → Bool
  saveOk : Bool
  initOk : Bool
  startChatOk : Bool
  deleteOk : String → Bool
  geminiImported : Bool

/-- Externally visible actions of a controller method, in program order. -/
inductive CEvent where
  | status (msg : String) (isError : Bool) (processing : Bool)
  | warn (msg : String)
  | saveConfig (ok : Bool)
  | backendDelete (name : String)
  | sessionInvalidated
  | historyCleared
  | initAI
  | startWorkerChat (msg : String)
  | startWorkerUpload (basenames : List String)
  | uiRefresh
deriving DecidableEq, Repr

/-- The mutable state of `SimpleTutorApp`.  The `GenerativeModel` is
modelled by the model name it was built with, the `ChatSession` by
`Option Unit` (the claims only need "live vs. invalidated"). -/
structure AppState where
  config_api_key : String
  config_model : String
  config_language : String
  config_temperature : ℚ
  local_file_paths : List (String × String)
  uploaded_files : List (String × FileObj)
  model : Option String
  current_chat_session : Option Unit
  current_chat_history : List ChatMsg
  selected_doc_basename : Option String
  is_ai_configured : Bool
  is_processing : Bool
deriving DecidableEq, Repr

/-- `update_status(message, is_error, processing)`: sets `is_processing`
and reports to the status bar. -/
def update_status (s : AppState) (msg : String) (isError : Bool := false)
    (processing : Bool := false) : AppState × CEvent :=
  ({ s with is_processing := processing }, .status msg isError processing)

/-- Characters of a path after its last separator (accumulator holds the
current segment, reversed). -/
def basenameChars : List Char → List Char → List Char
  | [], acc => acc.reverse
  | c :: cs, acc =>
    if c = '/' then basenameChars cs [] else basenameChars cs (c :: acc)

/-- `os.path.basename` for forward-slash paths. -/
def basenameOf (p : String) : String :=
  String.mk (basenameChars p.data [])

/-! ## File management (`add_files`, `remove_files`, `clear_all_files`,
`_attempt_backend_deletion`) -/

/-- Body of the `for path in file_paths` loop of `add_files`:
skip a path missing on disk (with a warning), reject a basename already in
the registry (with a warning), otherwise record it and count it. -/
def addFilesStep (env : Env) :
    (List (String × String) × Nat × List CEvent) → String →
    List (String × String) × Nat × List CEvent
  | (local_paths, added, evs), path =>
    if ¬ env.fsExists path then
      (local_paths, added, evs ++ [.warn ("Skipping missing file: " ++ path)])
    else
      let basename := basenameOf path
      if basename ∈ keysA local_paths then
        (local_paths, added,
          evs ++ [.warn ("'" ++ basename ++ "' is already in the list.")])
      else (insertA local_paths basename path, added + 1, evs)

/-- `SimpleTutorApp.add_files`. -/
def add_files (env : Env) (file_paths : List String) (s : AppState) :
    AppState × List CEvent :=
  if s.is_processing then (s, [.warn "Cannot add files now."])
  else
    let r := file_paths.foldl (addFilesStep env) (s.local_file_paths, 0, [])
    let s1 := { s with local_file_paths := r.1 }
    if r.2.1 > 0 then
      let (s2, e) := update_status s1
        ("Added " ++ toString r.2.1 ++ " files. Please 'Upload to AI'.")
      (s2, r.2.2 ++ [.saveConfig env.saveOk, .uiRefresh, e])
    else (s1, r.2.2)

/-- `SimpleTutorApp._attempt_backend_deletion`: no-op on an empty list or
when the AI is not configured; otherwise one `genai.delete_file` call per
object, failures merely counted and reported in a single warning. -/
def attempt_backend_deletion (env : Env) (objs : List FileObj)
    (configured : Bool) : List CEvent :=
  if objs = [] then []
  else if ¬ configured then []
  else
    (objs.map fun o => CEvent.backendDelete o.name) ++
      (if (objs.countP fun o => ¬ env.deleteOk o.name) > 0 then
        [.warn "Failed to delete file(s) from the AI backend."]
      else [])

/-- Body of the `for basename in basenames_to_remove` loop of
`remove_files`: delete the basename from the local registry if present,
and collect + delete its uploaded reference if it has one. -/
def removeFilesStep :
    (List (String × String) × List (String × FileObj) × List FileObj × Nat) →
    String →
    List (String × String) × List (String × FileObj) × List FileObj × Nat
  | (local_paths, uploaded, toDelete, removed), basename =>
    if basename ∈ keysA local_paths then
      let toDelete' :=
        match lookupA uploaded basename with
        | some obj => toDelete ++ [obj]
        | none => toDelete
      (eraseA local_paths basename, eraseA uploaded basename, toDelete',
        removed + 1)
    else (local_paths, uploaded, toDelete, removed)

/-- `SimpleTutorApp.remove_files`. -/
def remove_files (env : Env) (basenames_to_remove : List String)
    (s : AppState) : AppState × List CEvent :=
  if s.is_processing then (s, [.warn "Cannot remove files now."])
  else
    let r := basenames_to_remove.foldl removeFilesStep
      (s.local_file_paths, s.uploaded_files, [], 0)
    let localPaths := r.1
    let uploaded := r.2.1
    let toDelete := r.2.2.1
    let removed := r.2.2.2
    if removed = 0 then (s, [])
    else
      let hit : Bool := match s.selected_doc_basename with
        | some b => decide (b ∈ basenames_to_remove)
        | none => false
      let s1 :=
        if hit then
          { s with local_file_paths := localPaths, uploaded_files := uploaded,
                   selected_doc_basename := none, current_chat_session := none,
                   current_chat_history := [] }
        else
          { s with local_file_paths := localPaths, uploaded_files := uploaded }
      let evHit : List CEvent :=
        if hit then [.sessionInvalidated, .historyCleared] else []
      let (s2, e1) := update_status s1
        ("Removed " ++ toString removed ++ " files.")
      let evTail : List CEvent :=
        if localPaths = [] then
          [(update_status s2 "No local files loaded.").2]
        else if uploaded = [] then
          [(update_status s2 "No files uploaded to AI. Please Upload.").2]
        else []
      (s2, evHit ++ [.saveConfig env.saveOk] ++
        attempt_backend_deletion env toDelete s.is_ai_configured ++
        [.uiRefresh, e1] ++ evTail)

/-- `SimpleTutorApp.clear_all_files`. -/
def clear_all_files (env : Env) (s : AppState) : AppState × List CEvent :=
  if s.is_processing then (s, [.warn "Cannot clear files now."])
  else if s.local_file_paths = [] then (s, [])
  else
    let toDelete := s.uploaded_files.map Prod.snd
    let s1 := { s with local_file_paths := [], uploaded_files := [],
                       selected_doc_basename := none,
                       current_chat_session := none,
                       current_chat_history := [] }
    let (s2, e1) := update_status s1 "Cleared all files."
    (s2, [.sessionInvalidated, .historyCleared, .saveConfig env.saveOk] ++
      attempt_backend_deletion env toDelete s.is_ai_configured ++
      [.uiRefresh, e1])

/-! ## Chat logic (`_build_system_prompt`, `_start_ai_chat_turn`,
`_try_start_chat_session`, `handle_document_selection_change`,
`handle_user_message`, `_handle_ai_result`) -/

/-- `SimpleTutorApp._build_system_prompt`.  In the source only some of the
concatenated string literals carry the `f` prefix, so the CRITICAL RULES
line keeps the text `{current_doc_name}` verbatim instead of interpolating
the document name (braces written with escapes here). -/
def build_system_prompt (language current_doc_name : String) : String :=
  "You are 'Konenäkö Tutor', an AI assistant for a Machine Vision course teaching in "
    ++ language ++ ".\n"
    ++ "Your goal is to help the student understand the concepts presented ONLY in the provided course document: '"
    ++ current_doc_name ++ "'.\n"
    ++ "The document is provided via the File API and you should have access to it.\n\n"
    ++ "Based on our chat history and the document content, guide the student:\n"
    ++ "- Explain concepts clearly.\n- Ask relevant questions.\n- Provide exercises when appropriate.\n"
    ++ "- Offer constructive feedback.\n- Maintain a supportive, conversational tone.\n- Adapt based on the student's input.\n\n"
    ++ "CRITICAL RULES:\n"
    ++ "- Base ALL output STRICTLY on the provided document '\x7bcurrent_doc_name\x7d'. If info isn't there, say so.\n"
    ++ "- Use citations like '[Page X]' or '[Section Y]' when referencing the document.\n"
    ++ "- Decide the conversational next step (explain, ask, exercise, etc.).\n"
    ++ "- Wait for the student's input after asking a question or giving an exercise."

/-- `SimpleTutorApp._start_ai_chat_turn`: refuses without a live session or
configured AI, otherwise flips to busy and hands the message to an
`AIChatWorker` on a fresh thread. -/
def start_ai_chat_turn (message_for_ai : String) (s : AppState) :
    AppState × List CEvent :=
  if s.current_chat_session = none ∨ ¬ s.is_ai_configured then (s, [])
  else
    let (s1, e1) := update_status s "AI is thinking..." false true
    (s1, [e1, .startWorkerChat message_for_ai])

/-- The `--- Start New Chat ---` tail of `_try_start_chat_session`:
`model.start_chat(history=[])` and the synthesized introductory turn. -/
def start_new_chat (env : Env) (b : String) (s : AppState) :
    AppState × List CEvent :=
  let (s1, e1) := update_status s ("Initializing chat for " ++ b ++ "...")
    false true
  if env.startChatOk then
    let s2 := { s1 with current_chat_session := some () }
    let initial_message_to_ai :=
      build_system_prompt s.config_language b
        ++ "\n\nLet's begin. Please provide a brief introduction to the document '"
        ++ b ++ "' or suggest a starting point for discussion."
    let (s3, e2) := start_ai_chat_turn initial_message_to_ai s2
    (s3, [e1] ++ e2)
  else
    let s2 := { s1 with current_chat_session := none }
    let (s3, e2) := update_status s2 "Error starting chat." true false
    (s3, [e1, .warn "Failed to start chat session.", e2])

/-- `_try_start_chat_session` for a state whose selected document is known
to be `b` (the `some` branch of the match in `try_start_chat_session`;
also the continuation `handle_document_selection_change` runs after it has
set `selected_doc_basename := some b`). -/
def try_start_selected (env : Env) (b : String) (s : AppState) :
    AppState × List CEvent :=
  if ¬ s.is_ai_configured ∨ s.model = none then (s, [])
  else if b ∉ keysA s.uploaded_files then
    let (s1, e1) := update_status s ("Error: '" ++ b ++ "' not uploaded.") true
    (s1, [e1])
  else if s.current_chat_session.isSome then
    let (s1, e1) := update_status s ("Chatting about: " ++ b)
    (s1, [e1])
  else start_new_chat env b s

/-- `SimpleTutorApp.handle_document_selection_change`.  The combo-box
revert performed in the not-uploaded branch is presentation-only and does
not touch controller state. -/
def handle_document_selection_change (env : Env) (selected_basename : String)
    (s : AppState) : AppState × List CEvent :=
  if s.is_processing ∨ selected_basename = ""
      ∨ s.selected_doc_basename = some selected_basename then (s, [])
  else if selected_basename ∉ keysA s.uploaded_files then
    (s, [.warn ("'" ++ selected_basename
      ++ "' has not been successfully uploaded to the AI.")])
  else
    let s1 := { s with selected_doc_basename := some selected_basename,
                       current_chat_session := none,
                       current_chat_history := [] }
    let (s2, e1) := update_status s1
      ("Starting chat for document: " ++ selected_basename ++ "...")
    let (s3, e2) := try_start_selected env selected_basename s2
    (s3, [.sessionInvalidated, .historyCleared, e1] ++ e2)

/-- `SimpleTutorApp._try_start_chat_session`.  When no document is selected
but some document is uploaded, the source sets the combo box to the first
uploaded basename, which dispatches `handle_document_selection_change`
(the presentation boundary's `selectDocument` command). -/
def try_start_chat_session (env : Env) (s : AppState) : AppState × List CEvent :=
  if ¬ s.is_ai_configured ∨ s.model = none then (s, [])
  else
    match s.selected_doc_basename with
    | none =>
      match keysA s.uploaded_files with
      | [] =>
        let (s1, e1) := update_status s "Select a document (or add/upload files)."
        (s1, [e1])
      | d :: _ => handle_document_selection_change env d s
    | some b => try_start_selected env b s

/-- `SimpleTutorApp.handle_user_message`. -/
def handle_user_message (user_text : String) (s : AppState) :
    AppState × List CEvent :=
  if s.is_processing then (s, [.warn "Please wait for the AI's response."])
  else if s.current_chat_session = none then
    (s, [.warn "Please select an uploaded document to start chatting."])
  else
    let s1 := { s with current_chat_history :=
      s.current_chat_history ++ [⟨ROLE_USER, [user_text]⟩] }
    start_ai_chat_turn user_text s1

/-- `SimpleTutorApp._handle_ai_result`. -/
def handle_ai_result (ai_response_text : String) (s : AppState) :
    AppState × List CEvent :=
  let s1 := { s with current_chat_history :=
    s.current_chat_history ++ [⟨ROLE_AI, [ai_response_text]⟩] }
  let (s2, e1) := update_status s1
    ("Chatting about: "
      ++ (s.selected_doc_basename.getD "None")) false false
  (s2, [e1])

/-! ## Upload completion (`_handle_upload_finished`) -/

/-- Body of the `for file_obj in uploaded_file_objects` loop: record the
object under its display name if that basename is still registered
locally, otherwise attempt a backend deletion of the unexpected object. -/
def uploadFinishedStep (env : Env) (configured : Bool)
    (localPaths : List (String × String)) :
    (List (String × FileObj) × Nat × List CEvent) → FileObj →
    List (String × FileObj) × Nat × List CEvent
  | (uploaded, newly, evs), obj =>
    match obj.displayName with
    | some b =>
      if b ≠ "" ∧ b ∈ keysA localPaths then
        (insertA uploaded b obj, newly + 1, evs)
      else (uploaded, newly, evs ++ attempt_backend_deletion env [obj] configured)
    | none => (uploaded, newly, evs ++ attempt_backend_deletion env [obj] configured)

/-- `SimpleTutorApp._handle_upload_finished`. -/
def handle_upload_finished (env : Env) (uploaded_file_objects : List FileObj)
    (s : AppState) : AppState × List CEvent :=
  let r := uploaded_file_objects.foldl
    (uploadFinishedStep env s.is_ai_configured s.local_file_paths)
    (s.uploaded_files, 0, [])
  let s1 := { s with uploaded_files := r.1 }
  let newly := r.2.1
  let totalUploaded := r.1.length
  let totalLocal := s.local_file_paths.length
  let (s2, e1) :=
    if newly > 0 then
      update_status s1 ("Uploaded " ++ toString newly ++ " file(s). Total active: "
        ++ toString totalUploaded ++ "/" ++ toString totalLocal ++ ".") false false
    else if totalUploaded = totalLocal ∧ totalLocal > 0 then
      update_status s1 ("All " ++ toString totalLocal
        ++ " files are active on backend.") false false
    else
      update_status s1 ("Upload finished, but issues occurred. Active: "
        ++ toString totalUploaded ++ "/" ++ toString totalLocal ++ ".") true false
  let (s3, e2) := try_start_chat_session env s2
  (s3, r.2.2 ++ [e1, .uiRefresh] ++ e2)

/-! ## Settings (`apply_and_save_settings`, `initialize_ai`) -/

/-- The settings dict emitted by the settings widget. -/
structure Settings where
  api_key : String
  model : String
  language : String
  temperature : ℚ
deriving DecidableEq, Repr

/-- `SimpleTutorApp.initialize_ai`.  `genai.configure` plus
`GenerativeModel(...)` succeed iff `env.initOk`; on any failure the
`finally` block leaves `model` and `current_chat_session` cleared. -/
def initialize_ai (env : Env) (s : AppState) : AppState × List CEvent :=
  if ¬ env.geminiImported then
    let (s1, e1) := update_status s "Google AI library not installed." true
    (s1, [.initAI, e1])
  else if s.config_api_key = "" ∨ s.config_model = "" then
    let (s1, e1) := update_status s "API Key or Model Name missing in settings." true
    (s1, [.initAI, e1])
  else
    let (s1, e1) := update_status s "Configuring AI..." false true
    let s2 := { s1 with is_ai_configured := false, model := none,
                        current_chat_session := none }
    if env.initOk then
      let s3 := { s2 with model := some s.config_model, is_ai_configured := true }
      let (s4, e2) := update_status s3
        ("AI Configured: '" ++ s.config_model ++ "'. Ready.") false false
      let (s5, e3) := try_start_chat_session env s4
      (s5, [.initAI, e1, .sessionInvalidated, e2] ++ e3)
    else
      let (s3, e2) := update_status s2 "AI configuration failed." true false
      (s3, [.initAI, e1, .sessionInvalidated, .warn "AI Config Error", e2])

/-- `SimpleTutorApp.apply_and_save_settings`. -/
def apply_and_save_settings (env : Env) (settings : Settings) (s : AppState) :
    AppState × List CEvent :=
  if s.is_processing then
    (s, [.warn "Cannot change settings while a task is running."])
  else
    let old_api_key := s.config_api_key
    let old_model := s.config_model
    let s1 := { s with config_api_key := settings.api_key,
                       config_model := settings.model,
                       config_language := settings.language,
                       config_temperature := settings.temperature }
    if env.saveOk then
      let (s2, e1) := update_status s1 "Settings saved."
      if settings.api_key ≠ old_api_key ∨ settings.model ≠ old_model then
        let (s3, e2) := update_status s2
          "API Key or Model changed, re-initializing AI..."
        let (s4, e3) := initialize_ai env s3
        (s4, [.saveConfig true, e1, e2] ++ e3)
      else (s2, [.saveConfig true, e1])
    else
      let (s2, e1) := update_status s1 "Failed to save settings." true
      (s2, [.saveConfig false, e1])

/-! ## `PDFUploadWorker.run`

The worker is driven by two oracles: a per-file poll script
(`poll j` = what the `j`-th `genai.get_file` call for that file reports,
including the raising case retried by the source) and the stream
`reads : Nat → Bool` of values the `_is_running` flag has at the worker's
successive check sites (`stop()` flips the flag to `False` concurrently;
a run consults the stream left to right).  Times are in eighths of a
second: initial wait 40 (= 5 s), growth `min (wait * 3 / 2) 120`
(= ×1.5 capped at 15 s), per-file budget 960 (= 120 s).  The poll loop
runs on fuel; 25 iterations always suffice because each one advances
elapsed time by at least 40 (lemma `pollFile_ne_fuelOut`). -/

/-- What one `genai.get_file` call reports: an exception (retried with the
same wait), or the file's `state.name`. -/
inductive PollResult where
  | getErr
  | active
  | failed
  | processing
  | other (st : String)
deriving DecidableEq, Repr

/-- How the `--- File Processing Wait Loop ---` ends for one file. -/
inductive PollOutcome where
  | ok
  | stopPoll
  | failedSt
  | otherSt (st : String)
  | timedOut
  | fuelOut
deriving DecidableEq, Repr

/-- The poll loop (source lines 145-185, before the per-outcome actions):
returns the outcome together with the advanced read-stream position. -/
def pollFile (fuel : Nat) (poll : Nat → PollResult) (reads : Nat → Bool)
    (j k elapsed wait : Nat) : PollOutcome × Nat :=
  match fuel with
  | 0 => (.fuelOut, k)
  | fuel' + 1 =>
    if 960 ≤ elapsed then (.timedOut, k)
    else if ¬ reads k then (.stopPoll, k + 1)
    else
      match poll j with
      | .getErr => pollFile fuel' poll reads (j + 1) (k + 1) (elapsed + wait) wait
      | .active => (.ok, k + 1)
      | .failed => (.failedSt, k + 1)
      | .other st => (.otherSt st, k + 1)
      | .processing =>
        if ¬ reads (k + 1) then (.stopPoll, k + 2)
        else pollFile fuel' poll reads (j + 1) (k + 2) (elapsed + wait)
          (min (wait * 3 / 2) 120)

/-- One entry of the worker's batch: the `(path, basename)` pair plus the
oracle answers for it — whether `os.path.exists` still holds at upload
time, the opaque `name` the File API assigns, and the poll script. -/
structure WFile where
  path : String
  basename : String
  onDisk : Bool
  remoteName : String
  poll : Nat → PollResult

/-- Signals and remote calls of `PDFUploadWorker.run`, in program order. -/
inductive UpEvent where
  | progress (msg : String)
  | fileProcessed (filename : String)
  | deleteFile (name : String)
  | finished (refs : List FileObj)
  | error (msg : String)
deriving DecidableEq, Repr

/-- How the `for i, file_path in enumerate(...)` loop ends. -/
inductive LoopExit where
  | normal
  | stopped
  | raised (msg : String)
  | fuelOut
deriving DecidableEq, Repr

/-- The File API object built by `genai.upload_file` for a batch entry. -/
def wfileObj (f : WFile) : FileObj :=
  { name := f.remoteName, displayName := some f.basename }

/-- The outer per-file loop of `PDFUploadWorker.run` (source lines
124-187), threading the read-stream position `k` and the accumulator
`temp_uploaded_references`. -/
def uploadLoop (reads : Nat → Bool) :
    List WFile → Nat → List FileObj →
    List UpEvent × LoopExit × Nat × List FileObj
  | [], k, temp => ([], .normal, k, temp)
  | f :: rest, k, temp =>
    if ¬ reads k then ([], .stopped, k + 1, temp)
    else
      let ev1 : List UpEvent := [.progress ("Uploading " ++ f.basename ++ "...")]
      if ¬ f.onDisk then
        (ev1, .raised ("File disappeared before upload: " ++ f.basename),
          k + 1, temp)
      else if ¬ reads (k + 1) then (ev1, .stopped, k + 2, temp)
      else
        let ev2 := ev1 ++ [.progress ("Processing " ++ f.basename ++ "...")]
        let pr := pollFile 25 f.poll reads 0 (k + 2) 0 40
        match pr.1 with
        | .ok =>
          let ev3 := ev2 ++ [.fileProcessed f.basename]
          let temp' := temp ++ [wfileObj f]
          if ¬ reads pr.2 then (ev3, .stopped, pr.2 + 1, temp')
          else
            let r := uploadLoop reads rest (pr.2 + 1) temp'
            (ev3 ++ r.1, r.2)
        | .stopPoll =>
          if ¬ reads pr.2 then (ev2, .stopped, pr.2 + 1, temp)
          else
            let r := uploadLoop reads rest (pr.2 + 1) temp
            (ev2 ++ r.1, r.2)
        | .failedSt =>
          (ev2 ++ [.deleteFile f.remoteName],
            .raised ("File processing failed for '" ++ f.basename
              ++ "': State=FAILED"), pr.2, temp)
        | .otherSt st =>
          (ev2, .raised ("Unexpected state for '" ++ f.basename ++ "': " ++ st),
            pr.2, temp)
        | .timedOut =>
          (ev2 ++ [.deleteFile f.remoteName],
            .raised ("Timeout processing file '" ++ f.basename ++ "'"),
            pr.2, temp)
        | .fuelOut => (ev2, .fuelOut, pr.2, temp)

/-- `PDFUploadWorker.run`: initial stop check (which, when it fires, emits
`error_occurred("Upload stopped.")`), the per-file loop, and the terminal
dispatch — a raised exception is caught and reported via `error_occurred`;
otherwise line 190's `if self._is_running` decides whether `finished` is
emitted (both the complete and the partial branch emit the collected
references). -/
def uploadRun (reads : Nat → Bool) (files : List WFile) :
    List UpEvent × Nat :=
  if ¬ reads 0 then ([UpEvent.error "Upload stopped."], 1)
  else
    let r := uploadLoop reads files 1 []
    match r.2.1 with
    | .raised msg => (r.1 ++ [.error ("Upload Error: " ++ msg)], r.2.2.1)
    | .fuelOut => (r.1, r.2.2.1)
    | _ =>
      if reads r.2.2.1 then (r.1 ++ [.finished r.2.2.2], r.2.2.1 + 1)
      else (r.1, r.2.2.1 + 1)

/-! ## `AIChatWorker.run` -/

/-- Signals of `AIChatWorker.run`. -/
inductive ChatEvent where
  | result (text : String)
  | error (msg : String)
deriving DecidableEq, Repr

/-- `AIChatWorker.run`: `reads` is the `_is_running` stream as above,
`hasSession` models `self.chat_session is not None`, and `send` is the
outcome of `chat_session.send_message` together with the `response.text`
extraction (an exception from either is the `.error` case, reported as a
turn failure only if the flag still reads true). -/
def chatRun (reads : Nat → Bool) (hasSession : Bool)
    (send : Except String String) : List ChatEvent × Nat :=
  if ¬ reads 0 then ([], 1)
  else if ¬ hasSession then ([.error "AI Chat session not initialized."], 1)
  else
    match send with
    | .ok text =>
      if ¬ reads 1 then ([], 2)
      else if reads 2 then ([.result text], 3) else ([], 3)
    | .error e =>
      if reads 1 then ([.error ("AI Error: " ++ e)], 2) else ([], 2)

/-! ## Association-list lemmas -/

theorem keysA_cons {α : Type} (p : String × α) (l : List (String × α)) :
    keysA (p :: l) = p.1 :: keysA l := rfl

theorem keysA_insertA {α : Type} (l : List (String × α)) (k : String) (v : α)
    (b : String) : b ∈ keysA (insertA l k v) ↔ b = k ∨ b ∈ keysA l := by
  induction l with
  | nil => simp [insertA, keysA]
  | cons hd tl ih =>
    obtain ⟨a, w⟩ := hd
    by_cases h : a = k
    · subst h
      rw [show insertA ((a, w) :: tl) a v = (a, v) :: tl from by simp [insertA]]
      simp only [keysA_cons, List.mem_cons]
      tauto
    · simp only [insertA, if_neg h, keysA_cons, List.mem_cons, ih]
      tauto

theorem insertA_of_not_mem {α : Type} (l : List (String × α)) (k : String)
    (v : α) (h : k ∉ keysA l) : insertA l k v = l ++ [(k, v)] := by
  induction l with
  | nil => simp [insertA]
  | cons hd tl ih =>
    obtain ⟨a, w⟩ := hd
    rw [keysA_cons, List.mem_cons, not_or] at h
    have h1 : ¬ a = k := fun he => h.1 he.symm
    simp [insertA, h1, ih h.2]

theorem nodup_keysA_insertA {α : Type} (l : List (String × α)) (k : String)
    (v : α) (h : (keysA l).Nodup) : (keysA (insertA l k v)).Nodup := by
  induction l with
  | nil => simp [insertA, keysA]
  | cons hd tl ih =>
    obtain ⟨a, w⟩ := hd
    by_cases he : a = k
    · subst he
      simpa [insertA, keysA_cons] using h
    · rw [keysA_cons, List.nodup_cons] at h
      simp only [insertA, if_neg he, keysA_cons, List.nodup_cons]
      refine ⟨fun hm => ?_, ih h.2⟩
      rcases (keysA_insertA tl k v a).mp hm with rfl | hmem
      · exact he rfl
      · exact h.1 hmem

theorem keysA_eraseA {α : Type} (l : List (String × α)) (k : String) :
    keysA (eraseA l k) = (keysA l).erase k := by
  induction l with
  | nil => simp [eraseA, keysA]
  | cons hd tl ih =>
    obtain ⟨a, w⟩ := hd
    by_cases he : a = k
    · subst he
      simp [eraseA, keysA_cons, List.erase_cons_head]
    · simp [eraseA, he, keysA_cons, ih, List.erase_cons]

theorem eraseA_of_not_mem {α : Type} (l : List (String × α)) (k : String)
    (h : k ∉ keysA l) : eraseA l k = l := by
  induction l with
  | nil => rfl
  | cons hd tl ih =>
    obtain ⟨a, w⟩ := hd
    rw [keysA_cons, List.mem_cons, not_or] at h
    have h1 : ¬ a = k := fun he => h.1 he.symm
    simp [eraseA, h1, ih h.2]

theorem mem_keysA_iff_lookupA {α : Type} (l : List (String × α)) (b : String) :
    b ∈ keysA l ↔ lookupA l b ≠ none := by
  induction l with
  | nil => simp [keysA, lookupA]
  | cons hd tl ih =>
    by_cases he : hd.1 = b
    · simp [keysA, lookupA, he]
    · simp only [keysA, List.map_cons, List.mem_cons, lookupA, if_neg he]
      rw [← ih]
      simp only [keysA]
      constructor
      · rintro (rfl | hm)
        · exact absurd rfl he
        · exact hm
      · exact Or.inr

theorem lookupA_append {α : Type} (l t : List (String × α)) (b : String) :
    lookupA (l ++ t) b =
      match lookupA l b with
      | some v => some v
      | none => lookupA t b := by
  induction l with
  | nil => simp [lookupA]
  | cons hd tl ih =>
    by_cases he : hd.1 = b
    · simp [lookupA, he]
    · simp [lookupA, he, ih]

/-! ## A concrete run of the controller

The walkthrough of spec §8's scenario: a configured app adds `L1.pdf`,
its upload succeeds, the document is selected, the introductory turn's
reply arrives, the user sends one message and its reply arrives.  (When
the upload completes, `_handle_upload_finished` already auto-selects the
only uploaded document and starts the session, so the explicit selection
step is a no-op.) -/

def scenarioEnv : Env :=
  { fsExists := fun _ => true, saveOk := true, initOk := true,
    startChatOk := true, deleteOk := fun _ => true, geminiImported := true }

def scenarioInit : AppState :=
  { config_api_key := "KEY", config_model := "gemini",
    config_language := DEFAULT_LANGUAGE,
    config_temperature := DEFAULT_TEMPERATURE,
    local_file_paths := [], uploaded_files := [], model := some "gemini",
    current_chat_session := none, current_chat_history := [],
    selected_doc_basename := none, is_ai_configured := true,
    is_processing := false }

def scenarioLoaded : AppState :=
  (add_files scenarioEnv ["docs/L1.pdf"] scenarioInit).1

def scenarioUploadResult : AppState × List CEvent :=
  handle_upload_finished scenarioEnv
    [{ name := "files/abc123", displayName := some "L1.pdf" }] scenarioLoaded

def scenarioUploaded : AppState := scenarioUploadResult.1

def scenarioSelected : AppState :=
  (handle_document_selection_change scenarioEnv "L1.pdf" scenarioUploaded).1

def scenarioAfterIntro : AppState := (handle_ai_result "intro" scenarioSelected).1

def scenarioAfterUser : AppState × List CEvent :=
  handle_user_message "What is edge detection?" scenarioAfterIntro

def scenarioFinal : AppState := (handle_ai_result "answer" scenarioAfterUser.1).1

/-- Does a controller event start an `AIChatWorker` turn? -/
def isStartChatEv : CEvent → Bool
  | .startWorkerChat _ => true
  | _ => false

/-! ## Claim C9 -/

/-- Claim C9, counterexample: a saved record with `model = ""` round-trips
to `model = ""`, not to the documented default — `config.get`'s `fallback`
fires only for an absent option, and `save_config` writes every option. -/
theorem claim_C9_counterexample :
    load_config_file (save_config_file
      { api_key := "k", model := "", language := "Finnish",
        temperature := DEFAULT_TEMPERATURE, files := [] }) ≠
    specRoundTrip
      { api_key := "k", model := "", language := "Finnish",
        temperature := DEFAULT_TEMPERATURE, files := [] } := by
  decide

/-- Claim C9, amended: `save_config` followed by `load_config` is the
identity on every field — empty-but-present fields are NOT replaced by
defaults; the documented defaults are substituted only when the record
(or a field) is absent, as on a fresh start. -/
theorem claim_C9 :
    (∀ r : ConfigRecord, load_config_file (save_config_file r) = r) ∧
    load_config_file
      { present := false, apiKey := none, model := none, language := none,
        temperature := none, localPaths := none } = defaultConfigRecord := by
  constructor
  · intro r
    rfl
  · rfl

/-! ## Claim C7 -/

/-- Claim C7: while a background task is in flight (`is_processing`),
`handle_user_message` only emits the busy warning: the state — in
particular `current_chat_history` — is returned unchanged and no worker
is started. -/
theorem claim_C7 (user_text : String) (s : AppState)
    (h : s.is_processing = true) :
    handle_user_message user_text s =
      (s, [.warn "Please wait for the AI's response."]) := by
  simp [handle_user_message, h]

/-- Witness for C7: the state right after `_handle_upload_finished` has
the introductory turn pending, so it is busy; a user message there is
rejected without touching it. -/
theorem claim_C7_witness :
    scenarioUploaded.is_processing = true ∧
    handle_user_message "hello" scenarioUploaded =
      (scenarioUploaded, [.warn "Please wait for the AI's response."]) :=
  ⟨by decide, claim_C7 "hello" scenarioUploaded (by decide)⟩

/-! ## Claim C8 -/

/-- Claim C8: selecting a basename that is not a key of `uploaded_files`
leaves the controller state — `selected_doc_basename`,
`current_chat_session`, `current_chat_history` and everything else —
exactly as it was (the previous selection stays in effect); only a
warning dialog is shown. -/
theorem claim_C8 (env : Env) (selected_basename : String) (s : AppState)
    (h : selected_basename ∉ keysA s.uploaded_files) :
    (handle_document_selection_change env selected_basename s).1 = s := by
  unfold handle_document_selection_change
  by_cases h1 : s.is_processing ∨ selected_basename = ""
      ∨ s.selected_doc_basename = some selected_basename
  · simp [h1]
  · simp [h1, h]

/-- Witness for C8: selecting the never-uploaded `Other.pdf` in the final
scenario state changes nothing. -/
theorem claim_C8_witness :
    "Other.pdf" ∉ keysA scenarioFinal.uploaded_files ∧
    (handle_document_selection_change scenarioEnv "Other.pdf" scenarioFinal).1
      = scenarioFinal :=
  ⟨by decide, claim_C8 scenarioEnv "Other.pdf" scenarioFinal (by decide)⟩

/-! ## Claim C6 -/

/-- Claim C6, counterexample: in the spec §8 scenario the history length
after the introductory turn is not 2, and after the first user exchange it
is not 4 — the synthesized opening instruction is sent to the model but
never appended to `current_chat_history` (only `_handle_ai_result` and
`handle_user_message` append). -/
theorem claim_C6_counterexample :
    scenarioAfterIntro.current_chat_history.length ≠ 2 ∧
    scenarioFinal.current_chat_history.length ≠ 4 := by
  decide

/-- Claim C6, amended: in the scenario the session starts and the
introductory turn is auto-sent as soon as the upload completes; after the
intro reply the history holds 1 entry (the model reply only — the opening
instruction is not recorded), after the user's message and its reply it
holds 3, and the controller is back in the non-busy active-chat state with
the session intact. -/
theorem claim_C6 :
    scenarioUploaded.selected_doc_basename = some "L1.pdf" ∧
    scenarioUploaded.current_chat_session = some () ∧
    scenarioUploaded.is_processing = true ∧
    scenarioUploadResult.2.any isStartChatEv = true ∧
    scenarioSelected = scenarioUploaded ∧
    scenarioAfterIntro.current_chat_history = [⟨ROLE_AI, ["intro"]⟩] ∧
    scenarioAfterIntro.is_processing = false ∧
    scenarioAfterUser.1.current_chat_history.length = 2 ∧
    scenarioAfterUser.1.is_processing = true ∧
    scenarioFinal.current_chat_history =
      [⟨ROLE_AI, ["intro"]⟩, ⟨ROLE_USER, ["What is edge detection?"]⟩,
        ⟨ROLE_AI, ["answer"]⟩] ∧
    scenarioFinal.is_processing = false ∧
    scenarioFinal.current_chat_session = some () := by
  decide

/-! ## Claim C2: upload batch with a failing file -/

/-- The progress/success signals `PDFUploadWorker.run` emits for a file
that uploads and reaches `ACTIVE`. -/
def successEvents (f : WFile) : List UpEvent :=
  [.progress ("Uploading " ++ f.basename ++ "..."),
    .progress ("Processing " ++ f.basename ++ "..."),
    .fileProcessed f.basename]

/-- A batch entry that is on disk and whose poll script reaches `ACTIVE`
within the time budget (stated for an uncancelled run). -/
abbrev GoodFile (f : WFile) : Prop :=
  f.onDisk = true ∧ (pollFile 25 f.poll (fun _ => true) 0 0 0 40).1 = .ok

/-- A batch entry that is on disk but times out or reports `FAILED`. -/
abbrev DoomedFile (f : WFile) : Prop :=
  f.onDisk = true ∧
    ((pollFile 25 f.poll (fun _ => true) 0 0 0 40).1 = .timedOut ∨
      (pollFile 25 f.poll (fun _ => true) 0 0 0 40).1 = .failedSt)

/-- Is an event the worker's terminal `finished` signal? -/
def isFinishedEv : UpEvent → Bool
  | .finished _ => true
  | _ => false

/-- With the flag never flipped, the poll loop's outcome does not depend
on the position in the read stream. -/
theorem pollFile_true_fst (fuel : Nat) (p : Nat → PollResult) :
    ∀ j k k' elapsed wait,
      (pollFile fuel p (fun _ => true) j k elapsed wait).1 =
        (pollFile fuel p (fun _ => true) j k' elapsed wait).1 := by
  induction fuel with
  | zero => intro j k k' e w; rfl
  | succ n ih =>
    intro j k k' e w
    by_cases he : 960 ≤ e
    · simp [pollFile, he]
    · cases hp : p j with
      | getErr =>
        simp only [pollFile, if_neg he, hp]
        simpa using ih (j + 1) (k + 1) (k' + 1) (e + w) w
      | active => simp [pollFile, he, hp]
      | failed => simp [pollFile, he, hp]
      | processing =>
        simp only [pollFile, if_neg he, hp]
        simpa using ih (j + 1) (k + 2) (k' + 2) (e + w) (min (w * 3 / 2) 120)
      | other st => simp [pollFile, he, hp]

/-- An uncancelled run of the per-file loop on a batch of successes
followed by a doomed file: the loop raises at the doomed file, after
emitting exactly the success events of the prefix, the doomed file's two
progress messages and the `genai.delete_file` call for its remote
reference; entries after the doomed file are never touched. -/
theorem uploadLoop_success_prefix (bad : WFile) (post : List WFile)
    (hbad : DoomedFile bad) :
    ∀ pre : List WFile, (∀ f ∈ pre, GoodFile f) →
    ∀ k temp, ∃ kf msg,
      uploadLoop (fun _ => true) (pre ++ bad :: post) k temp =
        (pre.flatMap successEvents ++
          [.progress ("Uploading " ++ bad.basename ++ "..."),
            .progress ("Processing " ++ bad.basename ++ "..."),
            .deleteFile bad.remoteName],
          .raised msg, kf, temp ++ pre.map wfileObj) := by
  intro pre
  induction pre with
  | nil =>
    intro _ k temp
    have h1 := hbad.1
    have htr := pollFile_true_fst 25 bad.poll 0 (k + 2) 0 0 40
    rcases hbad.2 with hout | hout
    · refine ⟨(pollFile 25 bad.poll (fun _ => true) 0 (k + 2) 0 40).2,
        "Timeout processing file '" ++ bad.basename ++ "'", ?_⟩
      simp [uploadLoop, h1, htr.trans hout]
    · refine ⟨(pollFile 25 bad.poll (fun _ => true) 0 (k + 2) 0 40).2,
        "File processing failed for '" ++ bad.basename ++ "': State=FAILED", ?_⟩
      simp [uploadLoop, h1, htr.trans hout]
  | cons f rest ih =>
    intro hpre k temp
    have hf : GoodFile f := hpre f (List.mem_cons_self f rest)
    have hrest : ∀ g ∈ rest, GoodFile g := fun g hg => hpre g (List.mem_cons_of_mem f hg)
    have htr := pollFile_true_fst 25 f.poll 0 (k + 2) 0 0 40
    obtain ⟨kf, msg, hr⟩ := ih hrest
      ((pollFile 25 f.poll (fun _ => true) 0 (k + 2) 0 40).2 + 1)
      (temp ++ [wfileObj f])
    refine ⟨kf, msg, ?_⟩
    simp only [List.cons_append, uploadLoop, hf.1, htr.trans hf.2, hr]
    simp [successEvents, hr]

/-- Claim C2, amended: when an entry of the batch times out or fails
processing after a prefix of successes, `PDFUploadWorker.run` deletes the
failed entry's remote reference and reports the failure through
`error_occurred`, but it aborts the whole run: no `finished` signal is
ever emitted (so there is no terminal result containing the successes),
and entries ordered after the failed one are never submitted. -/
theorem claim_C2 (pre : List WFile) (bad : WFile) (post : List WFile)
    (hpre : ∀ f ∈ pre, GoodFile f) (hbad : DoomedFile bad) :
    ∃ emsg,
      (uploadRun (fun _ => true) (pre ++ bad :: post)).1 =
        pre.flatMap successEvents ++
          [.progress ("Uploading " ++ bad.basename ++ "..."),
            .progress ("Processing " ++ bad.basename ++ "..."),
            .deleteFile bad.remoteName, UpEvent.error emsg] ∧
      ∀ e ∈ (uploadRun (fun _ => true) (pre ++ bad :: post)).1,
        isFinishedEv e = false := by
  obtain ⟨kf, msg, hr⟩ := uploadLoop_success_prefix bad post hbad pre hpre 1 []
  have hrun : (uploadRun (fun _ => true) (pre ++ bad :: post)).1 =
      pre.flatMap successEvents ++
        [.progress ("Uploading " ++ bad.basename ++ "..."),
          .progress ("Processing " ++ bad.basename ++ "..."),
          .deleteFile bad.remoteName,
          UpEvent.error ("Upload Error: " ++ msg)] := by
    simp [uploadRun, hr]
  refine ⟨"Upload Error: " ++ msg, hrun, ?_⟩
  intro e he
  rw [hrun] at he
  rcases List.mem_append.mp he with he | he
  · rcases List.mem_flatMap.mp he with ⟨g, _, hg⟩
    simp only [successEvents, List.mem_cons, List.not_mem_nil, or_false] at hg
    rcases hg with rfl | rfl | rfl
    · rfl
    · rfl
    · rfl
  · simp only [List.mem_cons, List.not_mem_nil, or_false] at he
    rcases he with rfl | rfl | rfl | rfl
    · rfl
    · rfl
    · rfl
    · rfl

/-- The three-file batch of spec §8: `A` activates, `B` never leaves
`PROCESSING` (so it times out), `C` would activate. -/
def wA : WFile :=
  { path := "d/A.pdf", basename := "A.pdf", onDisk := true,
    remoteName := "files/A", poll := fun _ => .active }

def wB : WFile :=
  { path := "d/B.pdf", basename := "B.pdf", onDisk := true,
    remoteName := "files/B", poll := fun _ => .processing }

def wC : WFile :=
  { path := "d/C.pdf", basename := "C.pdf", onDisk := true,
    remoteName := "files/C", poll := fun _ => .active }

/-- Claim C2, counterexample: on the batch `[A, B, C]` where `B` times
out, the run emits no `finished` signal at all (so its terminal result
does not contain `{A, C}` — there is none), and `C`, ordered after the
failure, is never activated; only the deletion of `B`'s reference happens
as claimed. -/
theorem claim_C2_counterexample :
    ((uploadRun (fun _ => true) [wA, wB, wC]).1.all
        fun e => !(isFinishedEv e)) = true ∧
    UpEvent.deleteFile "files/B" ∈ (uploadRun (fun _ => true) [wA, wB, wC]).1 ∧
    UpEvent.fileProcessed "A.pdf" ∈ (uploadRun (fun _ => true) [wA, wB, wC]).1 ∧
    UpEvent.fileProcessed "C.pdf" ∉ (uploadRun (fun _ => true) [wA, wB, wC]).1 := by
  decide

/-- Witness instantiating `claim_C2` on the concrete batch `[A, B, C]`. -/
theorem claim_C2_witness :
    ∃ emsg,
      (uploadRun (fun _ => true) ([wA] ++ wB :: [wC])).1 =
        [wA].flatMap successEvents ++
          [.progress ("Uploading " ++ wB.basename ++ "..."),
            .progress ("Processing " ++ wB.basename ++ "..."),
            .deleteFile wB.remoteName, UpEvent.error emsg] ∧
      ∀ e ∈ (uploadRun (fun _ => true) ([wA] ++ wB :: [wC])).1,
        isFinishedEv e = false :=
  claim_C2 [wA] wB [wC] (by decide) (by decide)

/-! ## Claim C4: cooperative cancellation -/

/-- The `_is_running` flag of a worker starts `True` and is only ever set
to `False` by `stop()`: the values seen at successive check sites are
monotone — once a check reads `false`, every later check reads `false`. -/
def StopMono (reads : Nat → Bool) : Prop :=
  ∀ i j, i ≤ j → reads i = false → reads j = false

theorem stopMono_below {reads : Nat → Bool} (hmono : StopMono reads)
    {j : Nat} (hj : reads j = true) : ∀ i, i ≤ j → reads i = true := by
  intro i hij
  cases hri : reads i with
  | true => rfl
  | false =>
    have := hmono i j hij hri
    rw [hj] at this
    exact absurd this (by decide)

theorem stopMono_const_true : StopMono (fun _ => true) :=
  fun _ _ _ h => absurd h (by simp)

/-- Is an event one of the worker's two terminal signals
(`finished` or `error_occurred`)? -/
def isTerminalEv : UpEvent → Bool
  | .finished _ => true
  | .error _ => true
  | _ => false

/-- The per-file loop itself emits only progress, per-file success and
deletion events; `finished` and `error_occurred` are emitted solely by the
terminal dispatch of `run`. -/
theorem uploadLoop_no_terminal (reads : Nat → Bool) :
    ∀ (files : List WFile) (k : Nat) (temp : List FileObj) (e : UpEvent),
      e ∈ (uploadLoop reads files k temp).1 → isTerminalEv e = false := by
  intro files
  induction files with
  | nil => intro k temp e he; simp [uploadLoop] at he
  | cons f rest ih =>
    intro k temp e he
    by_cases h0 : reads k
    · by_cases hd : f.onDisk
      · by_cases h1 : reads (k + 1)
        · cases hout : (pollFile 25 f.poll reads 0 (k + 2) 0 40).1 with
          | ok =>
            by_cases h2 : reads (pollFile 25 f.poll reads 0 (k + 2) 0 40).2
            · simp [uploadLoop, h0, hd, h1, hout, h2] at he
              rcases he with rfl | rfl | rfl | he
              · rfl
              · rfl
              · rfl
              · exact ih _ _ _ he
            · simp [uploadLoop, h0, hd, h1, hout, h2] at he
              rcases he with rfl | rfl | rfl
              · rfl
              · rfl
              · rfl
          | stopPoll =>
            by_cases h2 : reads (pollFile 25 f.poll reads 0 (k + 2) 0 40).2
            · simp [uploadLoop, h0, hd, h1, hout, h2] at he
              rcases he with rfl | rfl | he
              · rfl
              · rfl
              · exact ih _ _ _ he
            · simp [uploadLoop, h0, hd, h1, hout, h2] at he
              rcases he with rfl | rfl
              · rfl
              · rfl
          | failedSt =>
            simp [uploadLoop, h0, hd, h1, hout] at he
            rcases he with rfl | rfl | rfl
            · rfl
            · rfl
            · rfl
          | otherSt st =>
            simp [uploadLoop, h0, hd, h1, hout] at he
            rcases he with rfl | rfl
            · rfl
            · rfl
          | timedOut =>
            simp [uploadLoop, h0, hd, h1, hout] at he
            rcases he with rfl | rfl | rfl
            · rfl
            · rfl
            · rfl
          | fuelOut =>
            simp [uploadLoop, h0, hd, h1, hout] at he
            rcases he with rfl | rfl
            · rfl
            · rfl
        · simp [uploadLoop, h0, hd, h1] at he
          subst he
          rfl
      · simp [uploadLoop, h0, hd] at he
        subst he
        rfl
    · simp [uploadLoop, h0] at he

/-- If the poll loop did not exit through a stop check, every read it
consulted (and everything consulted before it) was `true`. -/
theorem pollFile_reads_true (p : Nat → PollResult) (reads : Nat → Bool) :
    ∀ (fuel j k elapsed wait : Nat),
      (pollFile fuel p reads j k elapsed wait).1 ≠ .stopPoll →
      (∀ i, i < k → reads i = true) →
      ∀ i, i < (pollFile fuel p reads j k elapsed wait).2 → reads i = true := by
  intro fuel
  induction fuel with
  | zero => intro j k e w _ hk i hi; exact hk i hi
  | succ n ih =>
    intro j k e w hout hk i hi
    by_cases he : 960 ≤ e
    · simp only [pollFile, if_pos he] at hi
      exact hk i hi
    · by_cases hr : reads k
      · have hstep : ∀ i, i < k + 1 → reads i = true := by
          intro i hik
          rcases Nat.lt_succ_iff_lt_or_eq.mp hik with h | rfl
          · exact hk i h
          · exact hr
        cases hp : p j with
        | getErr =>
          simp [pollFile, he, hr, hp] at hout hi
          exact ih (j + 1) (k + 1) (e + w) w hout hstep i hi
        | active =>
          simp [pollFile, he, hr, hp] at hi
          exact hstep i hi
        | failed =>
          simp [pollFile, he, hr, hp] at hi
          exact hstep i hi
        | other st =>
          simp [pollFile, he, hr, hp] at hi
          exact hstep i hi
        | processing =>
          by_cases hr1 : reads (k + 1)
          · have hstep2 : ∀ i, i < k + 2 → reads i = true := by
              intro i hik
              rcases Nat.lt_succ_iff_lt_or_eq.mp hik with h | rfl
              · exact hstep i h
              · exact hr1
            simp [pollFile, he, hr, hp, hr1] at hout hi
            exact ih (j + 1) (k + 2) (e + w) (min (w * 3 / 2) 120) hout hstep2 i hi
          · exfalso
            apply hout
            simp [pollFile, he, hr, hp, hr1]
      · exfalso
        apply hout
        simp [pollFile, he, hr]

/-- If the poll loop exited through a stop check, some read it consulted
was `false`. -/
theorem pollFile_stopPoll_exists (p : Nat → PollResult) (reads : Nat → Bool) :
    ∀ (fuel j k elapsed wait : Nat),
      (pollFile fuel p reads j k elapsed wait).1 = .stopPoll →
      ∃ i, i < (pollFile fuel p reads j k elapsed wait).2 ∧ reads i = false := by
  intro fuel
  induction fuel with
  | zero => intro j k e w h; exact absurd h (by simp [pollFile])
  | succ n ih =>
    intro j k e w hout
    by_cases he : 960 ≤ e
    · exact absurd hout (by simp [pollFile, he])
    · by_cases hr : reads k
      · cases hp : p j with
        | getErr =>
          simp [pollFile, he, hr, hp] at hout ⊢
          exact ih (j + 1) (k + 1) (e + w) w hout
        | active =>
          exact absurd hout (by simp [pollFile, he, hr, hp])
        | failed =>
          exact absurd hout (by simp [pollFile, he, hr, hp])
        | other st =>
          exact absurd hout (by simp [pollFile, he, hr, hp])
        | processing =>
          by_cases hr1 : reads (k + 1)
          · simp [pollFile, he, hr, hp, hr1] at hout ⊢
            exact ih (j + 1) (k + 2) (e + w) (min (w * 3 / 2) 120) hout
          · refine ⟨k + 1, ?_, by simpa using hr1⟩
            simp [pollFile, he, hr, hp, hr1]
      · refine ⟨k, ?_, by simpa using hr⟩
        simp [pollFile, he, hr]

/-- If the per-file loop ends by raising, every read it consulted was
`true` (under the monotone-flag discipline: a raise never follows an
observed stop). -/
theorem uploadLoop_raised_reads {reads : Nat → Bool} (hmono : StopMono reads) :
    ∀ (files : List WFile) (k : Nat) (temp : List FileObj) (msg : String),
      (uploadLoop reads files k temp).2.1 = .raised msg →
      (∀ i, i < k → reads i = true) →
      ∀ i, i < (uploadLoop reads files k temp).2.2.1 → reads i = true := by
  intro files
  induction files with
  | nil => intro k temp msg h; exact absurd h (by simp [uploadLoop])
  | cons f rest ih =>
    intro k temp msg hex hk i hi
    by_cases h0 : reads k
    · have hk1 : ∀ i, i < k + 1 → reads i = true := by
        intro i hik
        rcases Nat.lt_succ_iff_lt_or_eq.mp hik with h | rfl
        · exact hk i h
        · exact h0
      by_cases hd : f.onDisk
      · by_cases h1 : reads (k + 1)
        · have hk2 : ∀ i, i < k + 2 → reads i = true := by
            intro i hik
            rcases Nat.lt_succ_iff_lt_or_eq.mp hik with h | rfl
            · exact hk1 i h
            · exact h1
          cases hout : (pollFile 25 f.poll reads 0 (k + 2) 0 40).1 with
          | ok =>
            have hpoll := pollFile_reads_true f.poll reads 25 0 (k + 2) 0 40
              (by simp [hout]) hk2
            by_cases h2 : reads (pollFile 25 f.poll reads 0 (k + 2) 0 40).2
            · have hknext : ∀ i,
                  i < (pollFile 25 f.poll reads 0 (k + 2) 0 40).2 + 1 →
                  reads i = true := by
                intro i hik
                rcases Nat.lt_succ_iff_lt_or_eq.mp hik with h | rfl
                · exact hpoll i h
                · exact h2
              simp [uploadLoop, h0, hd, h1, hout, h2] at hex hi
              exact ih _ _ _ hex hknext i hi
            · simp [uploadLoop, h0, hd, h1, hout, h2] at hex
          | stopPoll =>
            obtain ⟨iw, hiw, hfw⟩ := pollFile_stopPoll_exists f.poll reads
              25 0 (k + 2) 0 40 hout
            have hnext : reads (pollFile 25 f.poll reads 0 (k + 2) 0 40).2 = false :=
              hmono iw _ (Nat.le_of_lt hiw) hfw
            simp [uploadLoop, h0, hd, h1, hout, hnext] at hex
          | failedSt =>
            have hpoll := pollFile_reads_true f.poll reads 25 0 (k + 2) 0 40
              (by simp [hout]) hk2
            simp [uploadLoop, h0, hd, h1, hout] at hi
            exact hpoll i hi
          | otherSt st =>
            have hpoll := pollFile_reads_true f.poll reads 25 0 (k + 2) 0 40
              (by simp [hout]) hk2
            simp [uploadLoop, h0, hd, h1, hout] at hi
            exact hpoll i hi
          | timedOut =>
            have hpoll := pollFile_reads_true f.poll reads 25 0 (k + 2) 0 40
              (by simp [hout]) hk2
            simp [uploadLoop, h0, hd, h1, hout] at hi
            exact hpoll i hi
          | fuelOut =>
            simp [uploadLoop, h0, hd, h1, hout] at hex
        · simp [uploadLoop, h0, hd, h1] at hex
      · simp [uploadLoop, h0, hd] at hi
        exact hk1 i hi
    · simp [uploadLoop, h0] at hex

/-- Claim C4, counterexample: if `stop()` is requested before
`PDFUploadWorker.run` begins (every flag read is `false`), the worker
nevertheless emits a failure notification — `error_occurred("Upload
stopped.")` — although no work was committed (no upload was even
attempted). -/
theorem claim_C4_counterexample :
    uploadRun (fun _ => false) [wA] = ([UpEvent.error "Upload stopped."], 1) ∧
    UpEvent.error "Upload stopped." ∈ (uploadRun (fun _ => false) [wA]).1 := by
  decide

/-- Claim C4, amended.  With the monotone flag discipline (`StopMono`):
(1) if stop is already observed at `PDFUploadWorker.run`'s first check, the
run emits exactly the `error_occurred("Upload stopped.")` notice — the one
exception to the claim; (2) the `finished` signal is emitted only when
every flag read the run consulted was `true`, so once a stop is observed
no completion is ever reported; (3) apart from the initial notice,
`error_occurred` is likewise emitted only when every consulted read was
`true`; (4) `AIChatWorker.run` emits nothing at all (neither
`result_ready` nor `error_occurred`) unless every read it consulted was
`true`. -/
theorem claim_C4 :
    (∀ (reads : Nat → Bool) (files : List WFile), reads 0 = false →
      uploadRun reads files = ([UpEvent.error "Upload stopped."], 1)) ∧
    (∀ (reads : Nat → Bool) (files : List WFile) (refs : List FileObj),
      StopMono reads → UpEvent.finished refs ∈ (uploadRun reads files).1 →
      ∀ i, i < (uploadRun reads files).2 → reads i = true) ∧
    (∀ (reads : Nat → Bool) (files : List WFile) (msg : String),
      StopMono reads → reads 0 = true →
      UpEvent.error msg ∈ (uploadRun reads files).1 →
      ∀ i, i < (uploadRun reads files).2 → reads i = true) ∧
    (∀ (reads : Nat → Bool) (hasSession : Bool) (send : Except String String),
      StopMono reads → (chatRun reads hasSession send).1 ≠ [] →
      ∀ i, i < (chatRun reads hasSession send).2 → reads i = true) := by
  refine ⟨?_, ?_, ?_, ?_⟩
  · intro reads files h
    simp [uploadRun, h]
  · intro reads files refs hmono hmem i hi
    by_cases hr0 : reads 0
    · cases hex : (uploadLoop reads files 1 []).2.1 with
      | raised msg =>
        exfalso
        simp [uploadRun, hr0, hex] at hmem
        exact absurd (uploadLoop_no_terminal reads files 1 [] _ hmem)
          (by simp [isTerminalEv])
      | fuelOut =>
        exfalso
        simp [uploadRun, hr0, hex] at hmem
        exact absurd (uploadLoop_no_terminal reads files 1 [] _ hmem)
          (by simp [isTerminalEv])
      | normal =>
        by_cases hrk : reads (uploadLoop reads files 1 []).2.2.1
        · simp [uploadRun, hr0, hex, hrk] at hi
          exact stopMono_below hmono hrk i (by omega)
        · exfalso
          simp [uploadRun, hr0, hex, hrk] at hmem
          exact absurd (uploadLoop_no_terminal reads files 1 [] _ hmem)
            (by simp [isTerminalEv])
      | stopped =>
        by_cases hrk : reads (uploadLoop reads files 1 []).2.2.1
        · simp [uploadRun, hr0, hex, hrk] at hi
          exact stopMono_below hmono hrk i (by omega)
        · exfalso
          simp [uploadRun, hr0, hex, hrk] at hmem
          exact absurd (uploadLoop_no_terminal reads files 1 [] _ hmem)
            (by simp [isTerminalEv])
    · simp [uploadRun, hr0] at hmem
  · intro reads files msg hmono hr0 hmem i hi
    have hbase : ∀ t, t < 1 → reads t = true := by
      intro t ht
      have : t = 0 := by omega
      subst this
      exact hr0
    cases hex : (uploadLoop reads files 1 []).2.1 with
    | raised m =>
      have hall := uploadLoop_raised_reads hmono files 1 [] m hex hbase
      simp [uploadRun, hr0, hex] at hi
      exact hall i hi
    | fuelOut =>
      exfalso
      simp [uploadRun, hr0, hex] at hmem
      exact absurd (uploadLoop_no_terminal reads files 1 [] _ hmem)
        (by simp [isTerminalEv])
    | normal =>
      exfalso
      by_cases hrk : reads (uploadLoop reads files 1 []).2.2.1
      · simp [uploadRun, hr0, hex, hrk] at hmem
        exact absurd (uploadLoop_no_terminal reads files 1 [] _ hmem)
          (by simp [isTerminalEv])
      · simp [uploadRun, hr0, hex, hrk] at hmem
        exact absurd (uploadLoop_no_terminal reads files 1 [] _ hmem)
          (by simp [isTerminalEv])
    | stopped =>
      exfalso
      by_cases hrk : reads (uploadLoop reads files 1 []).2.2.1
      · simp [uploadRun, hr0, hex, hrk] at hmem
        exact absurd (uploadLoop_no_terminal reads files 1 [] _ hmem)
          (by simp [isTerminalEv])
      · simp [uploadRun, hr0, hex, hrk] at hmem
        exact absurd (uploadLoop_no_terminal reads files 1 [] _ hmem)
          (by simp [isTerminalEv])
  · intro reads hs send hmono hne i hi
    by_cases h0 : reads 0
    · by_cases hss : hs
      · cases send with
        | ok t =>
          by_cases h1 : reads 1
          · by_cases h2 : reads 2
            · simp [chatRun, h0, hss, h1, h2] at hi
              exact stopMono_below hmono h2 i (by omega)
            · exfalso
              exact hne (by simp [chatRun, h0, hss, h1, h2])
          · exfalso
            exact hne (by simp [chatRun, h0, hss, h1])
        | error e =>
          by_cases h1 : reads 1
          · simp [chatRun, h0, hss, h1] at hi
            exact stopMono_below hmono h1 i (by omega)
          · exfalso
            exact hne (by simp [chatRun, h0, hss, h1])
      · simp [chatRun, h0, hss] at hi
        have : i = 0 := by omega
        subst this
        exact h0
    · exfalso
      exact hne (by simp [chatRun, h0])

/-- Witness instantiating every part of `claim_C4` at concrete runs. -/
theorem claim_C4_witness :
    uploadRun (fun _ => false) [wB] = ([UpEvent.error "Upload stopped."], 1) ∧
    (fun _ : Nat => true) 0 = true ∧
    (fun _ : Nat => true) 1 = true ∧
    (fun _ : Nat => true) 2 = true :=
  ⟨claim_C4.1 (fun _ => false) [wB] rfl,
    claim_C4.2.1 (fun _ => true) [wA] [wfileObj wA] stopMono_const_true
      (by decide) 0 (by decide),
    claim_C4.2.2.1 (fun _ => true) [wB]
      ("Upload Error: Timeout processing file 'B.pdf'") stopMono_const_true
      rfl (by decide) 1 (by decide),
    claim_C4.2.2.2 (fun _ => true) true (Except.ok "hi") stopMono_const_true
      (by decide) 2 (by decide)⟩

/-! ## Claim C3: invalidation strictly precedes backend deletion -/

/-- The removal loop never decreases its removed-count accumulator. -/
theorem removeFold_removed_le :
    ∀ (bs : List String)
      (acc : List (String × String) × List (String × FileObj) × List FileObj × Nat),
      acc.2.2.2 ≤ (bs.foldl removeFilesStep acc).2.2.2 := by
  intro bs
  induction bs with
  | nil => intro acc; exact le_refl _
  | cons a rest ih =>
    intro acc
    rw [List.foldl_cons]
    refine le_trans ?_ (ih (removeFilesStep acc a))
    obtain ⟨l, u, d, n⟩ := acc
    by_cases ha : a ∈ keysA l
    · simp [removeFilesStep, ha]
    · simp [removeFilesStep, ha]

/-- If some removed basename is present in the local registry, the removal
loop counts at least one removal. -/
theorem removeFold_removed_pos :
    ∀ (bs : List String) (l : List (String × String))
      (u : List (String × FileObj)) (d : List FileObj) (n : Nat) (b : String),
      b ∈ bs → b ∈ keysA l →
      n < (bs.foldl removeFilesStep (l, u, d, n)).2.2.2 := by
  intro bs
  induction bs with
  | nil => intro l u d n b hb _; simp at hb
  | cons a rest ih =>
    intro l u d n b hb hbl
    by_cases ha : a ∈ keysA l
    · have hstep : (removeFilesStep (l, u, d, n) a).2.2.2 = n + 1 := by
        simp [removeFilesStep, ha]
      have hmon := removeFold_removed_le rest (removeFilesStep (l, u, d, n) a)
      rw [List.foldl_cons]
      omega
    · rcases List.mem_cons.mp hb with rfl | hbr
      · exact absurd hbl ha
      · have hstep : removeFilesStep (l, u, d, n) a = (l, u, d, n) := by
          simp [removeFilesStep, ha]
        rw [List.foldl_cons, hstep]
        exact ih l u d n b hbr hbl

/-- Claim C3: when the basename bound to the live Session is among the
removed basenames (or everything is cleared), the Session is set to `None`
and the history cleared strictly before any `genai.delete_file` call —
the first two events of the trace are the invalidation and the history
clear, so every backend-delete event sits at index ≥ 2 — and the final
state has no session, no history and no selection for every deletion
oracle (a backend deletion failure does not roll the local state back). -/
theorem claim_C3 (env : Env) (s : AppState) (bs : List String) (b : String)
    (hbusy : s.is_processing = false)
    (hsel : s.selected_doc_basename = some b)
    (hmem : b ∈ bs)
    (hloc : b ∈ keysA s.local_file_paths) :
    ((remove_files env bs s).2.head? = some CEvent.sessionInvalidated ∧
      (remove_files env bs s).2[1]? = some CEvent.historyCleared ∧
      (∀ j n, (remove_files env bs s).2[j]? = some (CEvent.backendDelete n) →
        2 ≤ j) ∧
      (remove_files env bs s).1.current_chat_session = none ∧
      (remove_files env bs s).1.current_chat_history = [] ∧
      (remove_files env bs s).1.selected_doc_basename = none) ∧
    ((clear_all_files env s).2.head? = some CEvent.sessionInvalidated ∧
      (clear_all_files env s).2[1]? = some CEvent.historyCleared ∧
      (∀ j n, (clear_all_files env s).2[j]? = some (CEvent.backendDelete n) →
        2 ≤ j) ∧
      (clear_all_files env s).1.current_chat_session = none ∧
      (clear_all_files env s).1.current_chat_history = [] ∧
      (clear_all_files env s).1.selected_doc_basename = none) := by
  have hpos := removeFold_removed_pos bs s.local_file_paths s.uploaded_files
    [] 0 b hmem hloc
  have hne : ¬((bs.foldl removeFilesStep
      (s.local_file_paths, s.uploaded_files, [], 0)).2.2.2 = 0) := by omega
  have hlne : s.local_file_paths ≠ [] := by
    intro h
    rw [h] at hloc
    simp [keysA] at hloc
  constructor
  · obtain ⟨rest, hrest⟩ : ∃ rest, (remove_files env bs s).2 =
        CEvent.sessionInvalidated :: CEvent.historyCleared :: rest := by
      simp [remove_files, hbusy, hne, hsel, hmem]
    refine ⟨by rw [hrest]; rfl, by rw [hrest]; simp, ?_, ?_, ?_, ?_⟩
    · intro j n hj
      rw [hrest] at hj
      match j with
      | 0 => simp at hj
      | 1 => simp at hj
      | j + 2 => omega
    · simp [remove_files, update_status, hbusy, hne, hsel, hmem]
    · simp [remove_files, update_status, hbusy, hne, hsel, hmem]
    · simp [remove_files, update_status, hbusy, hne, hsel, hmem]
  · obtain ⟨rest, hrest⟩ : ∃ rest, (clear_all_files env s).2 =
        CEvent.sessionInvalidated :: CEvent.historyCleared :: rest := by
      simp [clear_all_files, hbusy, hlne]
    refine ⟨by rw [hrest]; rfl, by rw [hrest]; simp, ?_, ?_, ?_, ?_⟩
    · intro j n hj
      rw [hrest] at hj
      match j with
      | 0 => simp at hj
      | 1 => simp at hj
      | j + 2 => omega
    · simp [clear_all_files, update_status, hbusy, hlne]
    · simp [clear_all_files, update_status, hbusy, hlne]
    · simp [clear_all_files, update_status, hbusy, hlne]

/-- Witness instantiating `claim_C3` in the scenario state (the live
session is bound to `L1.pdf`, which is then removed). -/
theorem claim_C3_witness :
    ((remove_files scenarioEnv ["L1.pdf"] scenarioFinal).2.head? =
        some CEvent.sessionInvalidated ∧
      (remove_files scenarioEnv ["L1.pdf"] scenarioFinal).2[1]? =
        some CEvent.historyCleared ∧
      (∀ j n, (remove_files scenarioEnv ["L1.pdf"] scenarioFinal).2[j]? =
          some (CEvent.backendDelete n) → 2 ≤ j) ∧
      (remove_files scenarioEnv ["L1.pdf"] scenarioFinal).1.current_chat_session
        = none ∧
      (remove_files scenarioEnv ["L1.pdf"] scenarioFinal).1.current_chat_history
        = [] ∧
      (remove_files scenarioEnv ["L1.pdf"] scenarioFinal).1.selected_doc_basename
        = none) ∧
    ((clear_all_files scenarioEnv scenarioFinal).2.head? =
        some CEvent.sessionInvalidated ∧
      (clear_all_files scenarioEnv scenarioFinal).2[1]? =
        some CEvent.historyCleared ∧
      (∀ j n, (clear_all_files scenarioEnv scenarioFinal).2[j]? =
          some (CEvent.backendDelete n) → 2 ≤ j) ∧
      (clear_all_files scenarioEnv scenarioFinal).1.current_chat_session
        = none ∧
      (clear_all_files scenarioEnv scenarioFinal).1.current_chat_history
        = [] ∧
      (clear_all_files scenarioEnv scenarioFinal).1.selected_doc_basename
        = none) :=
  claim_C3 scenarioEnv scenarioFinal ["L1.pdf"] "L1.pdf" (by decide) (by decide)
    (by decide) (by decide)

/-! ## Claim C5: settings change re-derives the configuration -/

/-- The scenario environment with a failing config-file write. -/
def badSaveEnv : Env := { scenarioEnv with saveOk := false }

/-- Claim C5, counterexample: applying settings with a changed API key
while the durable save fails (not busy, session live) runs no
`initialize_ai` and leaves the live session in place — the claim's
"from any state" does not survive a failed `save_config`. -/
theorem claim_C5_counterexample :
    scenarioFinal.is_processing = false ∧
    ("KEY2" : String) ≠ scenarioFinal.config_api_key ∧
    CEvent.initAI ∉ (apply_and_save_settings badSaveEnv
      { api_key := "KEY2", model := "gemini", language := "Finnish",
        temperature := DEFAULT_TEMPERATURE } scenarioFinal).2 ∧
    (apply_and_save_settings badSaveEnv
      { api_key := "KEY2", model := "gemini", language := "Finnish",
        temperature := DEFAULT_TEMPERATURE } scenarioFinal).1.current_chat_session
      = some () := by
  decide

/-- Claim C5, amended: when the controller is not busy, the durable save
succeeds, the new credentials/model differ from the current ones and are
non-empty (and the AI library is importable), `apply_and_save_settings`
runs `initialize_ai` and the old session is discarded — the trace contains
the re-initialization and the session invalidation (a fresh session for
the selected document may be started immediately afterwards, so the final
session need not be `None`). -/
theorem claim_C5 (env : Env) (st : Settings) (s : AppState)
    (hbusy : s.is_processing = false)
    (hsave : env.saveOk = true)
    (hdiff : st.api_key ≠ s.config_api_key ∨ st.model ≠ s.config_model)
    (himp : env.geminiImported = true)
    (hkey : st.api_key ≠ "")
    (hmodel : st.model ≠ "") :
    CEvent.initAI ∈ (apply_and_save_settings env st s).2 ∧
    CEvent.sessionInvalidated ∈ (apply_and_save_settings env st s).2 := by
  cases hio : env.initOk
  · constructor <;>
      simp [apply_and_save_settings, initialize_ai, update_status, hbusy,
        hsave, hdiff, himp, hkey, hmodel, hio]
  · constructor <;>
      simp [apply_and_save_settings, initialize_ai, update_status, hbusy,
        hsave, hdiff, himp, hkey, hmodel, hio]

/-- Witness instantiating `claim_C5` on the scenario state with a changed
API key. -/
theorem claim_C5_witness :
    CEvent.initAI ∈ (apply_and_save_settings scenarioEnv
      { api_key := "KEY2", model := "gemini", language := "Finnish",
        temperature := DEFAULT_TEMPERATURE } scenarioFinal).2 ∧
    CEvent.sessionInvalidated ∈ (apply_and_save_settings scenarioEnv
      { api_key := "KEY2", model := "gemini", language := "Finnish",
        temperature := DEFAULT_TEMPERATURE } scenarioFinal).2 :=
  claim_C5 scenarioEnv
    { api_key := "KEY2", model := "gemini", language := "Finnish",
      temperature := DEFAULT_TEMPERATURE } scenarioFinal
    (by decide) (by decide) (Or.inl (by decide)) (by decide) (by decide)
    (by decide)

/-! ## Claim C10: add_files skips, rejects duplicates, persists only on
real additions -/

/-- Is a controller event a warning dialog? -/
def isWarnEv : CEvent → Bool
  | .warn _ => true
  | _ => false

theorem lookupA_insertA_of_mem {α : Type} (l : List (String × α)) (k b : String)
    (v : α) (hk : k ∉ keysA l) (hb : b ∈ keysA l) :
    lookupA (insertA l k v) b = lookupA l b := by
  rw [insertA_of_not_mem l k v hk, lookupA_append]
  rcases hno : lookupA l b with _ | w
  · exact absurd hno ((mem_keysA_iff_lookupA l b).mp hb)
  · rfl

theorem addFilesStep_skip (env : Env) (l : List (String × String)) (n : Nat)
    (evs : List CEvent) (p : String) (hex : ¬ env.fsExists p = true) :
    addFilesStep env (l, n, evs) p =
      (l, n, evs ++ [.warn ("Skipping missing file: " ++ p)]) := by
  simp [addFilesStep, hex]

theorem addFilesStep_dup (env : Env) (l : List (String × String)) (n : Nat)
    (evs : List CEvent) (p : String) (hex : env.fsExists p = true)
    (hdup : basenameOf p ∈ keysA l) :
    addFilesStep env (l, n, evs) p =
      (l, n, evs ++ [.warn ("'" ++ basenameOf p ++ "' is already in the list.")]) := by
  simp [addFilesStep, hex, hdup]

theorem addFilesStep_fresh (env : Env) (l : List (String × String)) (n : Nat)
    (evs : List CEvent) (p : String) (hex : env.fsExists p = true)
    (hdup : basenameOf p ∉ keysA l) :
    addFilesStep env (l, n, evs) p =
      (insertA l (basenameOf p) p, n + 1, evs) := by
  simp [addFilesStep, hex, hdup]

theorem addFold_keys_mono (env : Env) :
    ∀ (paths : List String) (l : List (String × String)) (n : Nat)
      (evs : List CEvent) (b : String), b ∈ keysA l →
      b ∈ keysA (paths.foldl (addFilesStep env) (l, n, evs)).1 := by
  intro paths
  induction paths with
  | nil => intro l n evs b hb; exact hb
  | cons p rest ih =>
    intro l n evs b hb
    rw [List.foldl_cons]
    by_cases hex : env.fsExists p
    · by_cases hdup : basenameOf p ∈ keysA l
      · rw [addFilesStep_dup env l n evs p hex hdup]
        exact ih l n _ b hb
      · rw [addFilesStep_fresh env l n evs p hex hdup]
        exact ih _ (n + 1) _ b ((keysA_insertA l (basenameOf p) p b).mpr (Or.inr hb))
    · rw [addFilesStep_skip env l n evs p hex]
      exact ih l n _ b hb

theorem addFold_lookup_preserve (env : Env) :
    ∀ (paths : List String) (l : List (String × String)) (n : Nat)
      (evs : List CEvent) (b : String), b ∈ keysA l →
      lookupA (paths.foldl (addFilesStep env) (l, n, evs)).1 b = lookupA l b := by
  intro paths
  induction paths with
  | nil => intro l n evs b _; rfl
  | cons p rest ih =>
    intro l n evs b hb
    rw [List.foldl_cons]
    by_cases hex : env.fsExists p
    · by_cases hdup : basenameOf p ∈ keysA l
      · rw [addFilesStep_dup env l n evs p hex hdup]
        exact ih l n _ b hb
      · rw [addFilesStep_fresh env l n evs p hex hdup]
        rw [ih _ (n + 1) _ b ((keysA_insertA l (basenameOf p) p b).mpr (Or.inr hb))]
        exact lookupA_insertA_of_mem l (basenameOf p) b p hdup hb
    · rw [addFilesStep_skip env l n evs p hex]
      exact ih l n _ b hb

theorem addFold_keys_bound (env : Env) :
    ∀ (paths : List String) (l : List (String × String)) (n : Nat)
      (evs : List CEvent) (b : String),
      b ∈ keysA (paths.foldl (addFilesStep env) (l, n, evs)).1 →
      b ∈ keysA l ∨ ∃ p, p ∈ paths ∧ env.fsExists p = true ∧ basenameOf p = b := by
  intro paths
  induction paths with
  | nil => intro l n evs b hb; exact Or.inl hb
  | cons p rest ih =>
    intro l n evs b hb
    rw [List.foldl_cons] at hb
    by_cases hex : env.fsExists p
    · by_cases hdup : basenameOf p ∈ keysA l
      · rw [addFilesStep_dup env l n evs p hex hdup] at hb
        rcases ih l n _ b hb with h | ⟨q, hq, hqe, hqb⟩
        · exact Or.inl h
        · exact Or.inr ⟨q, List.mem_cons_of_mem p hq, hqe, hqb⟩
      · rw [addFilesStep_fresh env l n evs p hex hdup] at hb
        rcases ih _ (n + 1) _ b hb with h | ⟨q, hq, hqe, hqb⟩
        · rcases (keysA_insertA l (basenameOf p) p b).mp h with rfl | h
          · exact Or.inr ⟨p, List.mem_cons_self p rest, hex, rfl⟩
          · exact Or.inl h
        · exact Or.inr ⟨q, List.mem_cons_of_mem p hq, hqe, hqb⟩
    · rw [addFilesStep_skip env l n evs p hex] at hb
      rcases ih l n _ b hb with h | ⟨q, hq, hqe, hqb⟩
      · exact Or.inl h
      · exact Or.inr ⟨q, List.mem_cons_of_mem p hq, hqe, hqb⟩

theorem addFold_count_le (env : Env) :
    ∀ (paths : List String) (l : List (String × String)) (n : Nat)
      (evs : List CEvent), n ≤ (paths.foldl (addFilesStep env) (l, n, evs)).2.1 := by
  intro paths
  induction paths with
  | nil => intro l n evs; exact le_refl n
  | cons p rest ih =>
    intro l n evs
    rw [List.foldl_cons]
    by_cases hex : env.fsExists p
    · by_cases hdup : basenameOf p ∈ keysA l
      · rw [addFilesStep_dup env l n evs p hex hdup]
        exact ih l n _
      · rw [addFilesStep_fresh env l n evs p hex hdup]
        exact le_trans (Nat.le_succ n) (ih _ (n + 1) _)
    · rw [addFilesStep_skip env l n evs p hex]
      exact ih l n _

theorem addFold_count_iff (env : Env) :
    ∀ (paths : List String) (l : List (String × String)) (n : Nat)
      (evs : List CEvent),
      (paths.foldl (addFilesStep env) (l, n, evs)).2.1 ≠ n ↔
        ∃ p, p ∈ paths ∧ env.fsExists p = true ∧ basenameOf p ∉ keysA l := by
  intro paths
  induction paths with
  | nil =>
    intro l n evs
    simp
  | cons p rest ih =>
    intro l n evs
    rw [List.foldl_cons]
    by_cases hex : env.fsExists p
    · by_cases hdup : basenameOf p ∈ keysA l
      · rw [addFilesStep_dup env l n evs p hex hdup, ih l n _]
        constructor
        · rintro ⟨q, hq, hqe, hqb⟩
          exact ⟨q, List.mem_cons_of_mem p hq, hqe, hqb⟩
        · rintro ⟨q, hq, hqe, hqb⟩
          rcases List.mem_cons.mp hq with rfl | hq
          · exact absurd hdup hqb
          · exact ⟨q, hq, hqe, hqb⟩
      · rw [addFilesStep_fresh env l n evs p hex hdup]
        constructor
        · intro _
          exact ⟨p, List.mem_cons_self p rest, hex, hdup⟩
        · intro _
          have := addFold_count_le env rest (insertA l (basenameOf p) p) (n + 1) evs
          omega
    · rw [addFilesStep_skip env l n evs p hex, ih l n _]
      constructor
      · rintro ⟨q, hq, hqe, hqb⟩
        exact ⟨q, List.mem_cons_of_mem p hq, hqe, hqb⟩
      · rintro ⟨q, hq, hqe, hqb⟩
        rcases List.mem_cons.mp hq with rfl | hq
        · exact absurd hqe (by simp [hex])
        · exact ⟨q, hq, hqe, hqb⟩

theorem addFold_events_warn (env : Env) :
    ∀ (paths : List String) (l : List (String × String)) (n : Nat)
      (evs : List CEvent), (∀ e ∈ evs, isWarnEv e = true) →
      ∀ e ∈ (paths.foldl (addFilesStep env) (l, n, evs)).2.2,
        isWarnEv e = true := by
  intro paths
  induction paths with
  | nil => intro l n evs hw e he; exact hw e he
  | cons p rest ih =>
    intro l n evs hw e he
    rw [List.foldl_cons] at he
    by_cases hex : env.fsExists p
    · by_cases hdup : basenameOf p ∈ keysA l
      · rw [addFilesStep_dup env l n evs p hex hdup] at he
        refine ih l n _ ?_ e he
        intro e2 he2
        rcases List.mem_append.mp he2 with h | h
        · exact hw e2 h
        · simp only [List.mem_singleton] at h
          subst h
          rfl
      · rw [addFilesStep_fresh env l n evs p hex hdup] at he
        exact ih _ (n + 1) _ hw e he
    · rw [addFilesStep_skip env l n evs p hex] at he
      refine ih l n _ ?_ e he
      intro e2 he2
      rcases List.mem_append.mp he2 with h | h
      · exact hw e2 h
      · simp only [List.mem_singleton] at h
        subst h
        rfl

/-- Claim C10: for a non-busy controller, `add_files` (1) never overwrites
an existing basename-to-path binding, (2) only ever adds basenames coming
from paths that exist on disk — missing paths are skipped — while
continuing to process the rest of the batch, (3) persists the registry and
refreshes the UI exactly when at least one entry was actually added
(i.e. some path exists and carries a basename not yet registered), and
(4) leaves `uploaded_files` untouched. -/
theorem claim_C10 (env : Env) (paths : List String) (s : AppState)
    (hbusy : s.is_processing = false) :
    (∀ b, b ∈ keysA s.local_file_paths →
      lookupA (add_files env paths s).1.local_file_paths b =
        lookupA s.local_file_paths b) ∧
    (∀ b, b ∈ keysA (add_files env paths s).1.local_file_paths →
      b ∈ keysA s.local_file_paths ∨
        ∃ p, p ∈ paths ∧ env.fsExists p = true ∧ basenameOf p = b) ∧
    ((CEvent.saveConfig env.saveOk ∈ (add_files env paths s).2 ∧
        CEvent.uiRefresh ∈ (add_files env paths s).2) ↔
      ∃ p, p ∈ paths ∧ env.fsExists p = true ∧
        basenameOf p ∉ keysA s.local_file_paths) ∧
    (add_files env paths s).1.uploaded_files = s.uploaded_files := by
  by_cases hc : (paths.foldl (addFilesStep env) (s.local_file_paths, 0, [])).2.1 > 0
  · have hl : (add_files env paths s).1.local_file_paths =
        (paths.foldl (addFilesStep env) (s.local_file_paths, 0, [])).1 := by
      simp [add_files, hbusy, hc, update_status]
    have hu : (add_files env paths s).1.uploaded_files = s.uploaded_files := by
      simp [add_files, hbusy, hc, update_status]
    refine ⟨?_, ?_, ?_, hu⟩
    · intro b hb
      rw [hl]
      exact addFold_lookup_preserve env paths s.local_file_paths 0 [] b hb
    · intro b hb
      rw [hl] at hb
      exact addFold_keys_bound env paths s.local_file_paths 0 [] b hb
    · constructor
      · intro _
        exact (addFold_count_iff env paths s.local_file_paths 0 []).mp (by omega)
      · intro _
        constructor <;> simp [add_files, hbusy, hc]
  · have hev0 : (add_files env paths s).2 =
        (paths.foldl (addFilesStep env) (s.local_file_paths, 0, [])).2.2 := by
      simp [add_files, hbusy, hc]
    have hl : (add_files env paths s).1.local_file_paths =
        (paths.foldl (addFilesStep env) (s.local_file_paths, 0, [])).1 := by
      simp [add_files, hbusy, hc]
    have hu : (add_files env paths s).1.uploaded_files = s.uploaded_files := by
      simp [add_files, hbusy, hc]
    refine ⟨?_, ?_, ?_, hu⟩
    · intro b hb
      rw [hl]
      exact addFold_lookup_preserve env paths s.local_file_paths 0 [] b hb
    · intro b hb
      rw [hl] at hb
      exact addFold_keys_bound env paths s.local_file_paths 0 [] b hb
    · constructor
      · rintro ⟨hsave, _⟩
        rw [hev0] at hsave
        have := addFold_events_warn env paths s.local_file_paths 0 []
          (by simp) _ hsave
        simp [isWarnEv] at this
      · rintro hex
        exfalso
        have := (addFold_count_iff env paths s.local_file_paths 0 []).mpr hex
        omega

/-- Witness instantiating `claim_C10`: re-adding `L1.pdf` (a duplicate)
plus a fresh `L2.pdf` in the scenario's final state keeps the existing
binding of `L1.pdf` and does not touch `uploaded_files`. -/
theorem claim_C10_witness :
    lookupA (add_files scenarioEnv ["docs/L1.pdf", "docs/L2.pdf"]
        scenarioFinal).1.local_file_paths "L1.pdf" =
      lookupA scenarioFinal.local_file_paths "L1.pdf" ∧
    (add_files scenarioEnv ["docs/L1.pdf", "docs/L2.pdf"]
        scenarioFinal).1.uploaded_files = scenarioFinal.uploaded_files :=
  ⟨(claim_C10 scenarioEnv ["docs/L1.pdf", "docs/L2.pdf"] scenarioFinal
      (by decide)).1 "L1.pdf" (by decide),
    (claim_C10 scenarioEnv ["docs/L1.pdf", "docs/L2.pdf"] scenarioFinal
      (by decide)).2.2.2⟩

/-! ## Claim C1: `uploaded_files.keys ⊆ local_file_paths.keys` is preserved -/

theorem start_ai_chat_turn_maps (m : String) (s : AppState) :
    (start_ai_chat_turn m s).1.local_file_paths = s.local_file_paths ∧
    (start_ai_chat_turn m s).1.uploaded_files = s.uploaded_files := by
  unfold start_ai_chat_turn
  split
  · exact ⟨rfl, rfl⟩
  · simp [update_status]

theorem start_new_chat_maps (env : Env) (b : String) (s : AppState) :
    (start_new_chat env b s).1.local_file_paths = s.local_file_paths ∧
    (start_new_chat env b s).1.uploaded_files = s.uploaded_files := by
  unfold start_new_chat
  simp only [update_status]
  split
  · constructor
    · rw [(start_ai_chat_turn_maps _ _).1]
    · rw [(start_ai_chat_turn_maps _ _).2]
  · exact ⟨rfl, rfl⟩

theorem try_start_selected_maps (env : Env) (b : String) (s : AppState) :
    (try_start_selected env b s).1.local_file_paths = s.local_file_paths ∧
    (try_start_selected env b s).1.uploaded_files = s.uploaded_files := by
  unfold try_start_selected
  split
  · exact ⟨rfl, rfl⟩
  · split
    · simp [update_status]
    · split
      · simp [update_status]
      · exact start_new_chat_maps env b s

theorem selection_change_maps (env : Env) (b : String) (s : AppState) :
    (handle_document_selection_change env b s).1.local_file_paths =
      s.local_file_paths ∧
    (handle_document_selection_change env b s).1.uploaded_files =
      s.uploaded_files := by
  unfold handle_document_selection_change
  split
  · exact ⟨rfl, rfl⟩
  · split
    · exact ⟨rfl, rfl⟩
    · simp only [update_status]
      constructor
      · rw [(try_start_selected_maps _ _ _).1]
      · rw [(try_start_selected_maps _ _ _).2]

theorem try_start_maps (env : Env) (s : AppState) :
    (try_start_chat_session env s).1.local_file_paths = s.local_file_paths ∧
    (try_start_chat_session env s).1.uploaded_files = s.uploaded_files := by
  unfold try_start_chat_session
  split
  · exact ⟨rfl, rfl⟩
  · split
    · split
      · simp [update_status]
      · exact selection_change_maps env _ s
    · exact try_start_selected_maps env _ s

theorem addFold_nodup (env : Env) :
    ∀ (paths : List String) (l : List (String × String)) (n : Nat)
      (evs : List CEvent), (keysA l).Nodup →
      (keysA (paths.foldl (addFilesStep env) (l, n, evs)).1).Nodup := by
  intro paths
  induction paths with
  | nil => intro l n evs h; exact h
  | cons p rest ih =>
    intro l n evs h
    rw [List.foldl_cons]
    by_cases hex : env.fsExists p
    · by_cases hdup : basenameOf p ∈ keysA l
      · rw [addFilesStep_dup env l n evs p hex hdup]
        exact ih l n _ h
      · rw [addFilesStep_fresh env l n evs p hex hdup]
        exact ih _ (n + 1) _ (nodup_keysA_insertA l (basenameOf p) p h)
    · rw [addFilesStep_skip env l n evs p hex]
      exact ih l n _ h

theorem removeFold_inv :
    ∀ (bs : List String) (l : List (String × String))
      (u : List (String × FileObj)) (d : List FileObj) (n : Nat),
      (keysA l).Nodup → (keysA u).Nodup →
      (∀ b ∈ keysA u, b ∈ keysA l) →
      (keysA (bs.foldl removeFilesStep (l, u, d, n)).1).Nodup ∧
      (keysA (bs.foldl removeFilesStep (l, u, d, n)).2.1).Nodup ∧
      (∀ b ∈ keysA (bs.foldl removeFilesStep (l, u, d, n)).2.1,
        b ∈ keysA (bs.foldl removeFilesStep (l, u, d, n)).1) := by
  intro bs
  induction bs with
  | nil => intro l u d n h1 h2 h3; exact ⟨h1, h2, h3⟩
  | cons a rest ih =>
    intro l u d n h1 h2 h3
    rw [List.foldl_cons]
    by_cases ha : a ∈ keysA l
    · have hstep : removeFilesStep (l, u, d, n) a =
          (eraseA l a, eraseA u a,
            (match lookupA u a with
              | some obj => d ++ [obj]
              | none => d), n + 1) := by
        simp [removeFilesStep, ha]
      rw [hstep]
      refine ih _ _ _ _ ?_ ?_ ?_
      · rw [keysA_eraseA]
        exact h1.erase a
      · rw [keysA_eraseA]
        exact h2.erase a
      · intro b hb
        rw [keysA_eraseA] at hb ⊢
        have hb' := (List.Nodup.mem_erase_iff h2).mp hb
        exact (List.mem_erase_of_ne hb'.1).mpr (h3 b hb'.2)
    · have hstep : removeFilesStep (l, u, d, n) a = (l, u, d, n) := by
        simp [removeFilesStep, ha]
      rw [hstep]
      exact ih l u d n h1 h2 h3

theorem upFold_inv (env : Env) (cfg : Bool) (lp : List (String × String)) :
    ∀ (objs : List FileObj) (u : List (String × FileObj)) (n : Nat)
      (evs : List CEvent),
      (keysA u).Nodup → (∀ b ∈ keysA u, b ∈ keysA lp) →
      (keysA (objs.foldl (uploadFinishedStep env cfg lp) (u, n, evs)).1).Nodup ∧
      (∀ b ∈ keysA (objs.foldl (uploadFinishedStep env cfg lp) (u, n, evs)).1,
        b ∈ keysA lp) := by
  intro objs
  induction objs with
  | nil => intro u n evs h1 h2; exact ⟨h1, h2⟩
  | cons obj rest ih =>
    intro u n evs h1 h2
    rw [List.foldl_cons]
    rcases hdn : obj.displayName with _ | b
    · have hstep : uploadFinishedStep env cfg lp (u, n, evs) obj =
          (u, n, evs ++ attempt_backend_deletion env [obj] cfg) := by
        simp [uploadFinishedStep, hdn]
      rw [hstep]
      exact ih u n _ h1 h2
    · by_cases hok : b ≠ "" ∧ b ∈ keysA lp
      · have hstep : uploadFinishedStep env cfg lp (u, n, evs) obj =
            (insertA u b obj, n + 1, evs) := by
          simp [uploadFinishedStep, hdn, hok]
        rw [hstep]
        refine ih _ _ _ (nodup_keysA_insertA u b obj h1) ?_
        intro c hc
        rcases (keysA_insertA u b obj c).mp hc with rfl | hc
        · exact hok.2
        · exact h2 c hc
      · have hstep : uploadFinishedStep env cfg lp (u, n, evs) obj =
            (u, n, evs ++ attempt_backend_deletion env [obj] cfg) := by
          simp only [uploadFinishedStep, hdn, if_neg hok]
        rw [hstep]
        exact ih u n _ h1 h2

/-- The controller operations of the claim. -/
inductive Op where
  | add (paths : List String)
  | remove (basenames : List String)
  | clear
  | uploadFinished (objs : List FileObj)

/-- One settled controller operation (the state component of the
corresponding `SimpleTutorApp` method). -/
def stepOp (env : Env) (s : AppState) : Op → AppState
  | .add paths => (add_files env paths s).1
  | .remove bs => (remove_files env bs s).1
  | .clear => (clear_all_files env s).1
  | .uploadFinished objs => (handle_upload_finished env objs s).1

/-- A sequence of controller operations, each run after the previous one
settles. -/
def runOps (env : Env) : AppState → List Op → AppState
  | s, [] => s
  | s, op :: ops => runOps env (stepOp env s op) ops

/-- The claimed invariant: every key of `uploaded_files` is a key of
`local_file_paths`. -/
abbrev UploadedSubsetLocal (s : AppState) : Prop :=
  ∀ b ∈ keysA s.uploaded_files, b ∈ keysA s.local_file_paths

/-- Both registries have duplicate-free key lists — automatic for states
mirroring Python dicts, and preserved by every operation. -/
abbrev MapsWF (s : AppState) : Prop :=
  (keysA s.local_file_paths).Nodup ∧ (keysA s.uploaded_files).Nodup

theorem stepOp_pres (env : Env) (s : AppState) (op : Op)
    (h1 : MapsWF s) (h2 : UploadedSubsetLocal s) :
    MapsWF (stepOp env s op) ∧ UploadedSubsetLocal (stepOp env s op) := by
  cases op with
  | add paths =>
    by_cases hb : s.is_processing
    · simp only [stepOp, add_files, if_pos hb]
      exact ⟨h1, h2⟩
    · have hl : (add_files env paths s).1.local_file_paths =
          (paths.foldl (addFilesStep env) (s.local_file_paths, 0, [])).1 := by
        by_cases hc : (paths.foldl (addFilesStep env)
            (s.local_file_paths, 0, [])).2.1 > 0
        · simp [add_files, hb, hc, update_status]
        · simp [add_files, hb, hc]
      have hu : (add_files env paths s).1.uploaded_files = s.uploaded_files := by
        by_cases hc : (paths.foldl (addFilesStep env)
            (s.local_file_paths, 0, [])).2.1 > 0
        · simp [add_files, hb, hc, update_status]
        · simp [add_files, hb, hc]
      simp only [stepOp]
      refine ⟨⟨?_, ?_⟩, ?_⟩
      · rw [hl]
        exact addFold_nodup env paths s.local_file_paths 0 [] h1.1
      · rw [hu]
        exact h1.2
      · intro b hbm
        rw [hu] at hbm
        rw [hl]
        exact addFold_keys_mono env paths s.local_file_paths 0 [] b (h2 b hbm)
  | remove bs =>
    by_cases hb : s.is_processing
    · simp only [stepOp, remove_files, if_pos hb]
      exact ⟨h1, h2⟩
    · by_cases hz : (bs.foldl removeFilesStep
          (s.local_file_paths, s.uploaded_files, [], 0)).2.2.2 = 0
      · simp only [stepOp, remove_files, if_neg hb, if_pos hz]
        exact ⟨h1, h2⟩
      · have hinv := removeFold_inv bs s.local_file_paths s.uploaded_files
          [] 0 h1.1 h1.2 h2
        have hl : (remove_files env bs s).1.local_file_paths =
            (bs.foldl removeFilesStep
              (s.local_file_paths, s.uploaded_files, [], 0)).1 := by
          simp only [remove_files, if_neg hb, if_neg hz]
          split <;> simp [update_status]
        have hu : (remove_files env bs s).1.uploaded_files =
            (bs.foldl removeFilesStep
              (s.local_file_paths, s.uploaded_files, [], 0)).2.1 := by
          simp only [remove_files, if_neg hb, if_neg hz]
          split <;> simp [update_status]
        simp only [stepOp]
        refine ⟨⟨?_, ?_⟩, ?_⟩
        · rw [hl]
          exact hinv.1
        · rw [hu]
          exact hinv.2.1
        · intro b hbm
          rw [hu] at hbm
          rw [hl]
          exact hinv.2.2 b hbm
  | clear =>
    by_cases hb : s.is_processing
    · simp only [stepOp, clear_all_files, if_pos hb]
      exact ⟨h1, h2⟩
    · by_cases hz : s.local_file_paths = []
      · simp only [stepOp, clear_all_files, if_neg hb, if_pos hz]
        exact ⟨h1, h2⟩
      · simp only [stepOp, clear_all_files, if_neg hb, if_neg hz,
          update_status]
        refine ⟨⟨by simp [keysA], by simp [keysA]⟩, ?_⟩
        intro b hbm
        simp [keysA] at hbm
  | uploadFinished objs =>
    have hinv := upFold_inv env s.is_ai_configured s.local_file_paths objs
      s.uploaded_files 0 [] h1.2 h2
    have hl : (handle_upload_finished env objs s).1.local_file_paths =
        s.local_file_paths := by
      unfold handle_upload_finished
      simp only [update_status]
      split
      · rw [(try_start_maps _ _).1]
      · rw [(try_start_maps _ _).1]
        split <;> rfl
    have hu : (handle_upload_finished env objs s).1.uploaded_files =
        (objs.foldl (uploadFinishedStep env s.is_ai_configured
          s.local_file_paths) (s.uploaded_files, 0, [])).1 := by
      unfold handle_upload_finished
      simp only [update_status]
      split
      · rw [(try_start_maps _ _).2]
      · rw [(try_start_maps _ _).2]
        split <;> rfl
    simp only [stepOp]
    refine ⟨⟨?_, ?_⟩, ?_⟩
    · rw [hl]
      exact h1.1
    · rw [hu]
      exact hinv.1
    · intro b hbm
      rw [hu] at hbm
      rw [hl]
      exact hinv.2 b hbm

/-- Claim C1: for every sequence of controller operations (`add_files`,
`remove_files`, `clear_all_files`, `_handle_upload_finished`) run from any
well-formed state satisfying the invariant, the key set of
`uploaded_files` is a subset of the key set of `local_file_paths` after
every operation settles (the conclusion holds for the state after any
such sequence, hence after each prefix). -/
theorem claim_C1 (env : Env) (ops : List Op) (s : AppState)
    (h1 : MapsWF s) (h2 : UploadedSubsetLocal s) :
    UploadedSubsetLocal (runOps env s ops) ∧ MapsWF (runOps env s ops) := by
  induction ops generalizing s with
  | nil => exact ⟨h2, h1⟩
  | cons op ops ih =>
    have hstep := stepOp_pres env s op h1 h2
    exact ih (stepOp env s op) hstep.1 hstep.2

/-- Witness running `claim_C1` on a concrete operation sequence: add two
files, complete an upload of one, remove the other, then clear. -/
theorem claim_C1_witness :
    UploadedSubsetLocal (runOps scenarioEnv scenarioInit
      [Op.add ["docs/L1.pdf", "docs/L2.pdf"],
        Op.uploadFinished [{ name := "files/x", displayName := some "L1.pdf" }],
        Op.remove ["L2.pdf"], Op.clear]) ∧
    MapsWF (runOps scenarioEnv scenarioInit
      [Op.add ["docs/L1.pdf", "docs/L2.pdf"],
        Op.uploadFinished [{ name := "files/x", displayName := some "L1.pdf" }],
        Op.remove ["L2.pdf"], Op.clear]) :=
  claim_C1 scenarioEnv
    [Op.add ["docs/L1.pdf", "docs/L2.pdf"],
      Op.uploadFinished [{ name := "files/x", displayName := some "L1.pdf" }],
      Op.remove ["L2.pdf"], Op.clear]
    scenarioInit (by decide) (by decide)

end AIpdfTeacher
